import Mathlib

/-!
Verification of the reconciliation engine in `api/sync-to-webflow.js`
(art-aurea-api).

The development shallowly embeds the JavaScript source:

* JSON values are modelled by the inductive type `JValue`; JavaScript
  objects are insertion-ordered association lists of string keys.
* `JSON.stringify(value, replacerArray)` is modelled by `serRep`,
  including the ECMAScript semantics of an array replacer: the replacer
  is a property whitelist applied at every nesting level, and properties
  are emitted in replacer order.
* The MD5 digest (`generateMD5Hash`) is modelled as the identity on the
  serialized string: the digest is a deterministic function of the
  serialized form, and every fact proved below about digests is an
  equality of serialized forms, which is faithful for a deterministic
  digest.
* The stateful sync engine (`syncCollection` and its helpers) is
  modelled as a pure state-passing function over an explicit
  `SyncState`, with the remote Webflow store embedded as part of the
  state and an explicit trace of remote operations (`Op`).  The remote
  is given echo semantics: a created item holds exactly the field data
  that was sent.  Failure points (listing failure, per-item create
  failure, per-item update outcome) are environment parameters.
-/

namespace ArtAurea

/-- JavaScript values as seen by the sync engine: JSON values plus
`undefined`. -/
inductive JValue where
  | jnull : JValue
  | jbool : Bool → JValue
  | jnum : Int → JValue
  | jstr : String → JValue
  | jundef : JValue
  | jobj : List (String × JValue) → JValue
  | jarr : List JValue → JValue

namespace JValue

/-- JavaScript truthiness of a value (`if (v)`), for the checks the
source performs on field values. -/
def jtruthy : JValue → Bool
  | jnull => false
  | jundef => false
  | jbool b => b
  | jnum n => !(n = 0)
  | jstr s => !(s = "")
  | jobj _ => true
  | jarr _ => true

/-- Property access `o[k]` on an object given as an association list
(first match; JavaScript objects have unique keys). -/
def lookupField (k : String) : List (String × JValue) → Option JValue
  | [] => none
  | (k', v) :: rest => if k' = k then some v else lookupField k rest

/-- `delete o[k]`: removes the key, preserving the order of the others. -/
def removeField (k : String) : List (String × JValue) → List (String × JValue)
  | [] => []
  | (k', v) :: rest => if k' = k then removeField k rest else (k', v) :: removeField k rest

/-- Object-literal update `{...o, k: v}`: if `k` is present its value is
replaced in place, otherwise the pair is appended at the end. -/
def setField (k : String) (v : JValue) : List (String × JValue) → List (String × JValue)
  | [] => [(k, v)]
  | (k', v') :: rest => if k' = k then (k, v) :: rest else (k', v') :: setField k v rest

end JValue

open JValue

/-- A JavaScript object: the field map of an item. -/
abbrev FieldMap := List (String × JValue)

/-- `xs.join(sep)` on a list of strings. -/
def joinSep (sep : String) : List String → String
  | [] => ""
  | [s] => s
  | s :: rest => s ++ sep ++ joinSep sep rest

/-- Lexicographic comparison of strings by Unicode scalar values,
modelling the default JavaScript string ordering used by
`Array.prototype.sort` and by `Object.keys(...).sort()`. -/
def charListLe : List Char → List Char → Bool
  | [], _ => true
  | _ :: _, [] => false
  | c :: cs, d :: ds =>
    if c.val < d.val then true
    else if d.val < c.val then false
    else charListLe cs ds

/-- String comparison used for sorting (see `charListLe`). -/
def strLe (a b : String) : Bool := charListLe a.toList b.toList

/-- Insertion of a string into a sorted list (helper for `sortStrings`). -/
def insertSorted (a : String) : List String → List String
  | [] => [a]
  | b :: rest => if strLe a b then a :: b :: rest else b :: insertSorted a rest

/-- `xs.sort()` on an array of strings: stable sort in the default
JavaScript (lexicographic) order. -/
def sortStrings : List String → List String
  | [] => []
  | a :: rest => insertSorted a (sortStrings rest)

namespace JValue

/-- Lookup of a serialized member by key. -/
def lookupSer (k : String) : List (String × Option String) → Option (Option String)
  | [] => none
  | (k', v) :: rest => if k' = k then some v else lookupSer k rest

mutual

/-- `JSON.stringify(v, rep)` where `rep` is an array replacer: the
ECMAScript `PropertyList` semantics.  Object members are emitted in
replacer order, and the whitelist applies at every nesting level;
array elements are always serialized (an element serializing to
`undefined` becomes `null`).  A brace that is serializer output text is
written with its escape. -/
def serRep (rep : List String) : JValue → Option String
  | jundef => none
  | jnull => some "null"
  | jbool b => some (if b then "true" else "false")
  | jnum n => some (toString n)
  | jstr s => some ("\"" ++ s ++ "\"")
  | jarr xs => some ("[" ++ joinSep "," (serArr rep xs) ++ "]")
  | jobj kvs => some ("\x7b" ++ joinSep ","
      (rep.filterMap (fun k =>
        match lookupSer k (serFields rep kvs) with
        | some (some sv) => some ("\"" ++ k ++ "\":" ++ sv)
        | _ => none)) ++ "\x7d")

/-- Serialization of array elements under a replacer. -/
def serArr (rep : List String) : List JValue → List String
  | [] => []
  | v :: rest => (serRep rep v).getD "null" :: serArr rep rest

/-- Serialization of all members of an object under a replacer. -/
def serFields (rep : List String) : List (String × JValue) → List (String × Option String)
  | [] => []
  | (k, v) :: rest => (k, serRep rep v) :: serFields rep rest

end

end JValue

namespace JValue

/-- Does this object have a non-empty string `url` member?
Models the source check `value.url && typeof value.url === 'string'`. -/
def urlIsNonemptyString (kvs : List (String × JValue)) : Bool :=
  match lookupField "url" kvs with
  | some (jstr s) => !(s = "")
  | _ => false

/-- Is the `url` member of this object truthy?  Models the looser check
`item.url` used for array elements in `addImageMetadataToHash`. -/
def urlTruthy (kvs : List (String × JValue)) : Bool :=
  match lookupField "url" kvs with
  | some v => jtruthy v
  | none => false

mutual

/-- `addImageMetadataToHash` from `api/sync-to-webflow.js`: the in-code
comment states it exists to "include image asset IDs/URLs in hash for
reliable change detection", so "image changes (new URLs) are detected
even if other fields are unchanged".  For an object-valued member with
a non-empty string `url`, a `_hashUrl` member holding the URL is added
(`{...value, _hashUrl: value.url}`); other object members are
transformed recursively; array members transform image-like elements
(any truthy `url`) the same way and recurse into the rest; primitive
members are kept. -/
def addImageMetadataToHash : JValue → JValue
  | jobj kvs => jobj (aimFields kvs)
  | jarr xs => jarr (aimArr xs)
  | v => v

/-- The member loop of `addImageMetadataToHash` over an object. -/
def aimFields : List (String × JValue) → List (String × JValue)
  | [] => []
  | (key, value) :: rest =>
    (key,
      match value with
      | jobj vkvs =>
        if urlIsNonemptyString vkvs then
          jobj (setField "_hashUrl" ((lookupField "url" vkvs).getD jundef) vkvs)
        else
          jobj (aimFields vkvs)
      | jarr items => jarr (aimImgArr items)
      | other => other) :: aimFields rest

/-- The array branch inside the member loop: image-like elements get
`_hashUrl`, other elements recurse through `addImageMetadataToHash`. -/
def aimImgArr : List JValue → List JValue
  | [] => []
  | item :: rest =>
    (match item with
     | jobj ikvs =>
       if urlTruthy ikvs then
         jobj (setField "_hashUrl" ((lookupField "url" ikvs).getD jundef) ikvs)
       else
         addImageMetadataToHash (jobj ikvs)
     | other => addImageMetadataToHash other) :: aimImgArr rest

/-- The top-level array branch of `addImageMetadataToHash`
(`obj.map(addImageMetadataToHash)`). -/
def aimArr : List JValue → List JValue
  | [] => []
  | v :: rest => addImageMetadataToHash v :: aimArr rest

end

end JValue

open JValue

/-- `generateMD5Hash`: the source computes an MD5 hex digest of the
serialized bytes.  The digest is modelled as the identity on the
serialized string: it is a deterministic function of its input, and all
digest facts proved in this development are equalities of serialized
forms, which the real digest preserves. -/
def generateMD5Hash (s : String) : String := s

/-- `hashObjectStable` from `api/sync-to-webflow.js`:
`JSON.stringify(addImageMetadataToHash(obj), Object.keys(withMeta).sort())`
fed to the digest.  Note that the second `JSON.stringify` argument is an
ECMAScript array replacer: a property whitelist consisting of the
object's (sorted) top-level keys, applied at every nesting level. -/
def hashObjectStable (obj : FieldMap) : String :=
  let objWithImageMetadata := aimFields obj
  let json := (serRep (sortStrings (objWithImageMetadata.map Prod.fst))
    (jobj objWithImageMetadata)).getD ""
  generateMD5Hash json

mutual

/-- `extractImageUrls` from `api/sync-to-webflow.js`: collects the
`url` members of image-like objects.  In the object branch only
non-empty string urls are pushed; in the array branch any truthy `url`
value is pushed as-is. -/
def extractImageUrls : JValue → List JValue
  | jobj kvs => extractUrlsFields kvs
  | jarr xs => extractUrlsArr xs
  | _ => []

/-- Object branch of `extractImageUrls`: iterates over member values;
a non-image composite value recurses through `extractImageUrls`. -/
def extractUrlsFields : List (String × JValue) → List JValue
  | [] => []
  | (_, value) :: rest =>
    (match value with
     | jobj vkvs =>
       if urlIsNonemptyString vkvs then [(lookupField "url" vkvs).getD jundef]
       else extractImageUrls (jobj vkvs)
     | jarr xs => extractImageUrls (jarr xs)
     | _ => []) ++ extractUrlsFields rest

/-- Array branch of `extractImageUrls`: image-like elements contribute
their `url`, other elements recurse through `extractImageUrls`. -/
def extractUrlsArr : List JValue → List JValue
  | [] => []
  | item :: rest =>
    (match item with
     | jobj ikvs =>
       if urlTruthy ikvs then [(lookupField "url" ikvs).getD jundef]
       else extractImageUrls (jobj ikvs)
     | jarr xs => extractImageUrls (jarr xs)
     | other => extractImageUrls other) ++ extractUrlsArr rest

end

/-- JavaScript `String(v)` on the values `extractImageUrls` collects;
primitives are modelled exactly, composite values (never urls in
practice) by their ECMAScript default conversions. -/
def urlString : JValue → String
  | jstr s => s
  | jnum n => toString n
  | jbool b => if b then "true" else "false"
  | jnull => "null"
  | jundef => "undefined"
  | jobj _ => "[object Object]"
  | jarr _ => ""

/-- `urls.sort().join('|')` as used by `checkIfImagesChanged`. -/
def sortJoinPipe (urls : List JValue) : String :=
  joinSep "|" (sortStrings (urls.map urlString))

/-! ## The rate-limited remote client (`webflowRequest`) -/

/-- One simulated HTTP response from the destination store. -/
structure WfResponse where
  status : Nat
  body : String

/-- `response.ok` of the Fetch API: status in the 2xx range. -/
def respOk (status : Nat) : Bool := decide (200 ≤ status) && decide (status < 300)

/-- The retry ceiling (`maxRetries`) of `webflowRequest`. -/
def maxRetries : Nat := 3

/-- Result of one `webflowRequest` call: the value returned or the error
thrown, together with the backoff waits (in ms) taken before retries. -/
structure ReqOutcome where
  result : Except String String
  waits : List Nat

/-- `webflowRequest` from `api/sync-to-webflow.js`, as a function of the
sequence of responses the remote would give to attempt 0, 1, 2, ….
On a 429 with `retryCount < maxRetries` it waits `2^retryCount * 1000`
ms and retries; any other non-2xx throws
`Webflow API error: <status> <body>`; a 204 or DELETE returns the empty
object, otherwise the response body is returned. -/
def webflowRequest (resp : Nat → WfResponse) (isDelete : Bool) (retryCount : Nat) :
    ReqOutcome :=
  let response := resp retryCount
  if response.status = 429 && decide (retryCount < maxRetries) then
    let waitTime := 2 ^ retryCount * 1000
    let rest := webflowRequest resp isDelete (retryCount + 1)
    { result := rest.result, waits := waitTime :: rest.waits }
  else if !respOk response.status then
    { result := .error ("Webflow API error: " ++ toString response.status ++ " " ++
        response.body), waits := [] }
  else if response.status = 204 || isDelete then
    { result := .ok "", waits := [] }
  else
    { result := .ok response.body, waits := [] }
  termination_by maxRetries - retryCount
  decreasing_by
    rename_i h
    simp only [Bool.and_eq_true, decide_eq_true_eq] at h
    omega

/-! ## The global minimum-interval rate limiter -/

/-- `MIN_REQUEST_INTERVAL` (ms). -/
def MIN_REQUEST_INTERVAL : Int := 1200

/-- The rate-limiting prologue of `webflowRequest`: given the shared
`lastRequestTime` and the current clock `now`, the moment the request is
issued (after the conditional sleep); the source then stores this moment
back into `lastRequestTime`.  The timestamp is taken just before the
request is issued, i.e. at its start, not at its end. -/
def rlStep (lastRequestTime now : Int) : Int :=
  if now - lastRequestTime < MIN_REQUEST_INTERVAL then
    lastRequestTime + MIN_REQUEST_INTERVAL
  else now

/-- Start times of a sequence of requests arriving at the given clock
times, threading the single shared `lastRequestTime` through all calls
(all collections and callers share it). -/
def rlStarts (lastRequestTime : Int) : List Int → List Int
  | [] => []
  | now :: rest =>
    let s := rlStep lastRequestTime now
    s :: rlStarts s rest

/-! ## The collection reconciler (`syncCollection`) -/

/-- First-match lookup in a JavaScript `Map` modelled as an
insertion-ordered association list with unique keys. -/
def mapGet {α : Type} : List (String × α) → String → Option α
  | [], _ => none
  | (k', v) :: rest, k => if k' = k then some v else mapGet rest k

/-- `Map.set`: replaces the value in place if the key is present,
otherwise appends. -/
def mapSet {α : Type} : List (String × α) → String → α → List (String × α)
  | [], k, v => [(k, v)]
  | (k', v') :: rest, k, v =>
    if k' = k then (k, v) :: rest else (k', v') :: mapSet rest k v

/-- `Map.delete`: removes the (unique) entry for the key. -/
def mapDelete {α : Type} : List (String × α) → String → List (String × α)
  | [], _ => []
  | (k', v') :: rest, k => if k' = k then rest else (k', v') :: mapDelete rest k

/-- The values of a `Map` (iteration order). -/
def mapValues {α : Type} (m : List (String × α)) : List α := m.map Prod.snd

/-- JavaScript `a || b || null` on optional strings: the first operand
that is neither absent nor empty (truthy), else `none`. -/
def jsStrOr (a b : Option String) : Option String :=
  match a with
  | some s =>
    if s = "" then
      match b with
      | some t => if t = "" then none else some t
      | none => none
    else some s
  | none =>
    match b with
    | some t => if t = "" then none else some t
    | none => none

/-- `undefined`-test on a value (for filtering payload fields). -/
def JValue.isUndef : JValue → Bool
  | JValue.jundef => true
  | _ => false

/-- A record of the destination store (one Webflow CMS item, primary
locale field data). -/
structure WfItem where
  id : String
  fieldData : FieldMap

/-- A source record as consumed by `syncCollection`: its Sanity `_id`,
its `slug?.current`, and the (rarely present) `webflowId` field of the
document.  The collection-specific field payload is abstracted by the
`fieldMapper` of the environment. -/
structure SanityItem where
  _id : String
  slugCurrent : Option String
  webflowId : Option String

/-- The engine state threaded through a run: the identity mapping for
the collection being synced, the persistent hash ledger, and the
destination store itself (echo semantics). -/
structure SyncState where
  idMappings : List (String × String)
  persistentHashes : List (String × String)
  webflowItems : List WfItem

/-- Outcome of the remote PATCH for one update item, an environment
parameter: success, a non-rate-limit failure (logged, run continues), a
429 whose single retry succeeds, or a 429 whose single retry throws
(the exception propagates out of `syncCollection`). -/
inductive UpdOutcome where
  | ok
  | failOther
  | fail429RetryOk
  | fail429RetryFail
deriving DecidableEq

/-- The remote operations a run issues, in order. -/
inductive Op where
  | bulkFetch
  | getItem (id : String)
  | deleteItem (id : String)
  | createItem (id : String)
  | patchGermanLocale (id : String)
  | updateItem (id : String)
  | publishItems (ids : List String)
deriving DecidableEq

/-- Environment of a run: the collection configuration (`mappingKey`,
field mappers), the operator flags (`FORCE_UPDATE`,
`SINGLE_ITEM_FILTER`, per-collection `limit`), the destination id
generator, and the failure behaviour of the remote. -/
structure SyncEnv where
  mappingKey : String
  fieldMapper : SanityItem → Option FieldMap
  germanMapper : SanityItem → Option FieldMap
  forceUpdate : Bool
  singleItem : Bool
  listFails : Bool
  createFails : String → Bool
  updateOutcome : String → UpdOutcome
  freshId : String → String
  limit : Option Nat

/-- `getWebflowItems`: the paginated listing of all existing items of
the collection; on any error the source catches and returns the empty
list (`return []`). -/
def getWebflowItems (env : SyncEnv) (st : SyncState) : List WfItem :=
  if env.listFails then [] else st.webflowItems

/-- `store.find` by destination id (a GET of one item; `none` models a
404). -/
def storeFind (store : List WfItem) (id : String) : Option WfItem :=
  store.find? (fun w => w.id == id)

/-- The `webflowBySlug` index: built over the fetched items, keyed by
the truthy `slug` field, later entries overwriting earlier ones
(`Map.set`).  Slugs are strings in the destination store. -/
def buildBySlug (items : List WfItem) : List (String × WfItem) :=
  items.foldl (fun m w =>
    match lookupField "slug" w.fieldData with
    | some (JValue.jstr s) => if s = "" then m else mapSet m s w
    | _ => m) []

/-- `checkIfImagesChanged`: fetches the current destination item and
compares the sorted, `|`-joined image URL lists; on a fetch error
(item absent) it returns `false` (never force an update on error). -/
def checkIfImagesChanged (store : List WfItem) (webflowItemId : String)
    (newImageUrls : List JValue) : Bool :=
  if webflowItemId == "" || newImageUrls.isEmpty then false
  else
    match storeFind store webflowItemId with
    | none => false
    | some currentItem =>
      let currentImageUrls := extractImageUrls (JValue.jobj currentItem.fieldData)
      !(sortJoinPipe currentImageUrls == sortJoinPipe newImageUrls)

/-- An item queued for creation (`newItems` entry). -/
structure NewItem where
  item : SanityItem
  fieldData : FieldMap
  germanFieldData : Option FieldMap

/-- An item queued for update (`updateItems` entry). -/
structure UpdItem where
  item : SanityItem
  webflowId : String
  fieldData : FieldMap
  germanFieldData : Option FieldMap
  hash : String
  key : String

/-- Accumulator of the classification loop of `syncCollection`. -/
structure ClassAcc where
  mappings : List (String × String)
  hashes : List (String × String)
  newItems : List NewItem
  updateItems : List UpdItem
  existingCount : Nat
  ops : List Op

/-- German field preparation for one item: the mapper is called with
the German locale; a thrown error is swallowed (warned), and an empty
field map is treated as no German data. -/
def prepGerman (env : SyncEnv) (item : SanityItem) : Option FieldMap :=
  match env.germanMapper item with
  | some gf => if gf.isEmpty then none else some gf
  | none => none

/-- Result of the staleness verification of one resolved destination
id. -/
structure StaleOut where
  mappings : List (String × String)
  hashes : List (String × String)
  existingId : Option String
  ops : List Op

/-- The staleness verification block of the classification loop (lines
1405–1418): a resolved id is fetched once; a 404 clears the mapping and
the hash-ledger entry and treats the record as new. -/
def staleCheck (env : SyncEnv) (store : List WfItem)
    (mappings hashes : List (String × String)) (item : SanityItem)
    (existingId0 : Option String) (ops : List Op) : StaleOut :=
  match existingId0 with
  | some eid =>
    if (storeFind store eid).isSome then
      ⟨mappings, hashes, some eid, ops ++ [Op.getItem eid]⟩
    else
      ⟨mapDelete mappings item._id,
        mapDelete hashes (env.mappingKey ++ ":" ++ item._id),
        none, ops ++ [Op.getItem eid]⟩
  | none => ⟨mappings, hashes, none, ops⟩

/-- The slug-adoption block of the classification loop (lines
1420–1428): a record with no resolved id adopts the existing
destination item carrying its mapped (truthy) slug, recording the
mapping. -/
def adoptBySlug (webflowBySlug : List (String × WfItem))
    (mappings : List (String × String)) (item : SanityItem)
    (mappedFieldsForId : FieldMap) (existingId1 : Option String) :
    List (String × String) × Option String :=
  match existingId1 with
  | some eid => (mappings, some eid)
  | none =>
    match lookupField "slug" mappedFieldsForId with
    | some (JValue.jstr s) =>
      if s = "" then (mappings, none)
      else
        match mapGet webflowBySlug s with
        | some adopt =>
          if adopt.id = "" then (mappings, none)
          else (mapSet mappings item._id adopt.id, some adopt.id)
        | none => (mappings, none)
    | _ => (mappings, none)

/-- One iteration of the classification loop of `syncCollection`
(lines 1388–1515 of `api/sync-to-webflow.js`): field mapping (a failure
skips the record), staleness verification of a resolved destination id
(a 404 purges the mapping and hash), slug-based adoption, and
classification into new / update / unchanged via the hash ledger, the
force flag and the image-URL comparison. -/
def classifyOne (env : SyncEnv) (store : List WfItem)
    (webflowBySlug : List (String × WfItem)) (acc : ClassAcc)
    (item : SanityItem) : ClassAcc :=
  match env.fieldMapper item with
  | none => acc
  | some mappedFieldsForId =>
    let existingId0 := jsStrOr (mapGet acc.mappings item._id) item.webflowId
    let stale := staleCheck env store acc.mappings acc.hashes item existingId0 acc.ops
    let m1 := stale.mappings
    let h1 := stale.hashes
    let ex1 := stale.existingId
    let ops1 := stale.ops
    let adopted := adoptBySlug webflowBySlug m1 item mappedFieldsForId ex1
    let m2 := adopted.1
    match adopted.2 with
    | none =>
      { mappings := m2, hashes := h1,
        newItems := acc.newItems ++ [⟨item, mappedFieldsForId, prepGerman env item⟩],
        updateItems := acc.updateItems,
        existingCount := acc.existingCount, ops := ops1 }
    | some eid =>
      let mapped := removeField "slug" mappedFieldsForId
      let german := prepGerman env item
      let hash := hashObjectStable mapped
      let key := env.mappingKey ++ ":" ++ item._id
      let prev := mapGet h1 key
      let newImageUrls := extractImageUrls (JValue.jobj mapped)
      let imagesChanged :=
        if !newImageUrls.isEmpty then checkIfImagesChanged store eid newImageUrls
        else false
      let ops2 := if !newImageUrls.isEmpty then ops1 ++ [Op.getItem eid] else ops1
      if !(prev == some hash) || env.forceUpdate || imagesChanged then
        { mappings := m2, hashes := h1, newItems := acc.newItems,
          updateItems := acc.updateItems ++ [⟨item, eid, mapped, german, hash, key⟩],
          existingCount := acc.existingCount, ops := ops2 }
      else
        { mappings := m2, hashes := h1, newItems := acc.newItems,
          updateItems := acc.updateItems,
          existingCount := acc.existingCount + 1, ops := ops2 }

/-- The classification loop over all source records
(`for (const item of sanityData) …`). -/
def classifyAll (env : SyncEnv) (store : List WfItem)
    (webflowBySlug : List (String × WfItem)) (sanityData : List SanityItem)
    (acc : ClassAcc) : ClassAcc :=
  sanityData.foldl (classifyOne env store webflowBySlug) acc

/-- Result of the orphan pass. -/
structure OrphanOut where
  mappings : List (String × String)
  hashes : List (String × String)
  store : List WfItem
  deletedIds : List String
  ops : List Op

/-- The `claimedWebflowIds` set of the orphan pass: all mapping values,
the (truthy) update targets, and the ids slug-claimed by unmapped
source records. -/
def claimedIds (env : SyncEnv) (sanityData : List SanityItem)
    (webflowBySlug : List (String × WfItem)) (c : ClassAcc) : List String :=
  mapValues c.mappings
    ++ c.updateItems.filterMap (fun ui =>
         if ui.webflowId = "" then none else some ui.webflowId)
    ++ sanityData.filterMap (fun item =>
         match item.slugCurrent with
         | some slug =>
           if slug = "" then none
           else
             match mapGet c.mappings item._id with
             | some _ => none
             | none => (mapGet webflowBySlug slug).map (fun w => w.id)
         | none => none)

/-- The orphaned destination items: every fetched item whose id is not
claimed. -/
def orphanedOf (env : SyncEnv) (sanityData : List SanityItem)
    (existingWebflowItems : List WfItem) (webflowBySlug : List (String × WfItem))
    (c : ClassAcc) : List WfItem :=
  existingWebflowItems.filter
    (fun w => !((claimedIds env sanityData webflowBySlug c).contains w.id))

/-- The orphan pass of `syncCollection` (lines 1519–1584): skipped
entirely in single-item mode; otherwise every fetched destination item
whose id is neither a mapping value, nor a (truthy) update target, nor
slug-claimed by an unmapped source record, is deleted, and mapping/hash
entries pointing at deleted ids are purged. -/
def orphanPass (env : SyncEnv) (sanityData : List SanityItem)
    (existingWebflowItems : List WfItem) (webflowBySlug : List (String × WfItem))
    (c : ClassAcc) (store : List WfItem) : OrphanOut :=
  if env.singleItem then ⟨c.mappings, c.hashes, store, [], []⟩
  else
    let orphanedItems := orphanedOf env sanityData existingWebflowItems webflowBySlug c
    if orphanedItems.isEmpty then ⟨c.mappings, c.hashes, store, [], []⟩
    else
      let orphanedIds := orphanedItems.map (fun w => w.id)
      let store' := store.filter (fun w => !(orphanedIds.contains w.id))
      let purgedSanityIds := c.mappings.filterMap
        (fun p => if orphanedIds.contains p.2 then some p.1 else none)
      let mappings' := c.mappings.filter (fun p => !(orphanedIds.contains p.2))
      let hashes' := c.hashes.filter (fun p =>
        !((purgedSanityIds.map (fun s => env.mappingKey ++ ":" ++ s)).contains p.1))
      ⟨mappings', hashes', store', orphanedIds, orphanedIds.map Op.deleteItem⟩

/-- Result of the creation phase. -/
structure CreateOut where
  store : List WfItem
  results : List WfItem
  ops : List Op
  aborted : Bool

/-- `createWebflowItems`: items are created one at a time via the bulk
endpoint (undefined field values filtered from the payload), the German
locale is patched when German data exists, and each item is published
(`FLAG_PUBLISH` is the constant `true`).  A failure is rethrown
(`throw error`), aborting the whole loop: earlier items stay created,
later items are never attempted, and no results are returned. -/
def createWebflowItems (env : SyncEnv) : List NewItem → List WfItem → CreateOut
  | [], store => ⟨store, [], [], false⟩
  | ni :: rest, store =>
    if env.createFails ni.item._id then ⟨store, [], [], true⟩
    else
      let cleanFieldData := ni.fieldData.filter (fun p => !p.2.isUndef)
      let createdItem : WfItem := ⟨env.freshId ni.item._id, cleanFieldData⟩
      let opsHere := [Op.createItem createdItem.id]
        ++ (match ni.germanFieldData with
            | some _ => [Op.patchGermanLocale createdItem.id]
            | none => [])
        ++ [Op.publishItems [createdItem.id]]
      let restOut := createWebflowItems env rest (store ++ [createdItem])
      if restOut.aborted then
        ⟨restOut.store, [], opsHere ++ restOut.ops, true⟩
      else
        ⟨restOut.store, createdItem :: restOut.results, opsHere ++ restOut.ops, false⟩

/-- The post-creation bookkeeping of `syncCollection` (lines
1592–1601): for each created item, the identity mapping is recorded and
the hash ledger receives the digest of the created item's returned
field data. -/
def recordCreated (env : SyncEnv) :
    List (WfItem × NewItem) → List (String × String) → List (String × String) →
    List (String × String) × List (String × String)
  | [], m, h => (m, h)
  | (w, ni) :: rest, m, h =>
    recordCreated env rest (mapSet m ni.item._id w.id)
      (mapSet h (env.mappingKey ++ ":" ++ ni.item._id) (hashObjectStable w.fieldData))

/-- Result of the update phase. -/
structure UpdateOut where
  store : List WfItem
  hashes : List (String × String)
  updatedCount : Nat
  updatedItemIds : List String
  ops : List Op
  aborted : Bool

/-- `{...old}` updated by a PATCH payload: each provided field replaces
the stored one, other fields are kept. -/
def mergeFields (old new : FieldMap) : FieldMap :=
  new.foldl (fun acc kv => setField kv.1 kv.2 acc) old

/-- A successful single-item PATCH against the store. -/
def applyUpdate (store : List WfItem) (id : String) (fields : FieldMap) : List WfItem :=
  store.map (fun w => if w.id == id then ⟨w.id, mergeFields w.fieldData fields⟩ else w)

/-- The update loop of `syncCollection` (lines 1610–1663): per item,
the primary locale is patched, the hash ledger updated, and the German
locale patched; a non-429 failure is logged and the loop continues with
the next item; a 429 is retried once after a longer fixed delay, and if
that retry throws the exception propagates, aborting the loop. -/
def updatePhase (env : SyncEnv) : List UpdItem → List WfItem →
    List (String × String) → UpdateOut
  | [], store, hashes => ⟨store, hashes, 0, [], [], false⟩
  | u :: rest, store, hashes =>
    match env.updateOutcome u.webflowId with
    | .ok =>
      let store1 := applyUpdate store u.webflowId u.fieldData
      let hashes1 := mapSet hashes u.key u.hash
      let restOut := updatePhase env rest store1 hashes1
      ⟨restOut.store, restOut.hashes, restOut.updatedCount + 1,
        u.webflowId :: restOut.updatedItemIds,
        [Op.updateItem u.webflowId, Op.patchGermanLocale u.webflowId] ++ restOut.ops,
        restOut.aborted⟩
    | .failOther =>
      let restOut := updatePhase env rest store hashes
      ⟨restOut.store, restOut.hashes, restOut.updatedCount,
        restOut.updatedItemIds,
        [Op.updateItem u.webflowId] ++ restOut.ops, restOut.aborted⟩
    | .fail429RetryOk =>
      let store1 := applyUpdate store u.webflowId u.fieldData
      let hashes1 := mapSet hashes u.key u.hash
      let restOut := updatePhase env rest store1 hashes1
      ⟨restOut.store, restOut.hashes, restOut.updatedCount + 1,
        u.webflowId :: restOut.updatedItemIds,
        [Op.updateItem u.webflowId, Op.updateItem u.webflowId,
          Op.patchGermanLocale u.webflowId] ++ restOut.ops,
        restOut.aborted⟩
    | .fail429RetryFail =>
      ⟨store, hashes, 0, [],
        [Op.updateItem u.webflowId, Op.updateItem u.webflowId], true⟩

/-- The observable outcome of one `syncCollection` run: the final
engine state, the ordered trace of remote operations, the counters the
source logs, and whether the run was aborted by a rethrown per-item
exception. -/
structure SyncRun where
  state : SyncState
  ops : List Op
  created : Nat
  updated : Nat
  unchanged : Nat
  aborted : Bool

/-- `syncCollection` from `api/sync-to-webflow.js`: caps the source
list, performs the bulk listing of existing destination items
(unconditionally — also in single-item mode), builds the slug index,
runs the classification loop, the orphan pass (skipped in single-item
mode), the creation phase with post-creation mapping/hash recording,
the update phase, and the final batch publish of updated items.
`unchanged` is the source's `Math.max(existingCount - updateItems.length, 0)`. -/
def syncCollection (env : SyncEnv) (sanityQueryResult : List SanityItem)
    (st : SyncState) : SyncRun :=
  let sanityData :=
    match env.limit with
    | some l => sanityQueryResult.take l
    | none => sanityQueryResult
  let existingWebflowItems := getWebflowItems env st
  let webflowBySlug := buildBySlug existingWebflowItems
  let c := classifyAll env st.webflowItems webflowBySlug sanityData
    ⟨st.idMappings, st.persistentHashes, [], [], 0, [Op.bulkFetch]⟩
  let o := orphanPass env sanityData existingWebflowItems webflowBySlug c st.webflowItems
  let cr := createWebflowItems env c.newItems o.store
  if cr.aborted then
    { state := ⟨o.mappings, o.hashes, cr.store⟩,
      ops := c.ops ++ o.ops ++ cr.ops,
      created := cr.results.length, updated := 0,
      unchanged := c.existingCount - c.updateItems.length,
      aborted := true }
  else
    let rec1 := recordCreated env (cr.results.zip c.newItems) o.mappings o.hashes
    let up := updatePhase env c.updateItems cr.store rec1.2
    let publishOps :=
      if up.aborted || up.updatedItemIds.isEmpty then []
      else [Op.publishItems up.updatedItemIds]
    { state := ⟨rec1.1, up.hashes, up.store⟩,
      ops := c.ops ++ o.ops ++ cr.ops ++ up.ops ++ publishOps,
      created := cr.results.length,
      updated := up.updatedCount,
      unchanged := c.existingCount - c.updateItems.length,
      aborted := up.aborted }

/-! ## The locale projector (`mapCreatorFields` and helpers) -/

/-- JavaScript `a || d` for an optional string against a string
default. -/
def jsOrStr (a : Option String) (d : String) : String :=
  match a with
  | some s => if s = "" then d else s
  | none => d

/-- Whitespace as trimmed by `String.prototype.trim`. -/
def isWsChar (c : Char) : Bool :=
  c = ' ' || c = '\t' || c = '\n' || c = '\x0d'

/-- `s.trim()`. -/
def jsTrim (s : String) : String :=
  String.mk (((s.toList.dropWhile isWsChar).reverse.dropWhile isWsChar).reverse)

/-- Is the (lower-cased) character kept by the slug pattern
`[^a-z0-9]+`? -/
def isSlugAlnum (c : Char) : Bool :=
  (decide (97 ≤ c.toNat) && decide (c.toNat ≤ 122)) ||
    (decide (48 ≤ c.toNat) && decide (c.toNat ≤ 57))

/-- `replace(/[^a-z0-9]+/g, '-')`: each maximal run of characters
outside `[a-z0-9]` becomes one dash.  The flag records whether the
previous output character was the dash of a pending run. -/
def slugReplace (lastDash : Bool) : List Char → List Char
  | [] => []
  | c :: rest =>
    if isSlugAlnum c then c :: slugReplace false rest
    else if lastDash then slugReplace true rest
    else '-' :: slugReplace true rest

/-- `generateSlug` from `api/sync-to-webflow.js`: falsy input gives
`untitled`; otherwise lower-case, collapse non-alphanumeric runs to
dashes, and strip leading/trailing dashes. -/
def generateSlug (text : Option String) : String :=
  match text with
  | none => "untitled"
  | some t =>
    if t = "" then "untitled"
    else
      let replaced := slugReplace false (t.toList.map Char.toLower)
      String.mk (((replaced.dropWhile (fun c => c = '-')).reverse.dropWhile
        (fun c => c = '-')).reverse)

/-- `parseInt(s, 10)`: leading whitespace skipped, optional sign, the
leading run of decimal digits; no digits gives `NaN` (`none`). -/
def parseInt10 (s : String) : Option Int :=
  let isDigit := fun (c : Char) => decide (48 ≤ c.toNat) && decide (c.toNat ≤ 57)
  let takeDigits := fun (cs : List Char) => cs.takeWhile isDigit
  let digitsToNat := fun (ds : List Char) =>
    ds.foldl (fun (a : Nat) (c : Char) => a * 10 + (c.toNat - 48)) 0
  let cs := s.toList.dropWhile isWsChar
  match cs with
  | '-' :: rest =>
    let ds := takeDigits rest
    if ds.isEmpty then none else some (-(digitsToNat ds : Int))
  | '+' :: rest =>
    let ds := takeDigits rest
    if ds.isEmpty then none else some ((digitsToNat ds : Int))
  | _ =>
    let ds := takeDigits cs
    if ds.isEmpty then none else some ((digitsToNat ds : Int))

/-- One span of a Sanity rich-text block (`child.text`). -/
structure Span where
  text : Option String

/-- One Sanity rich-text block as read by `extractTextFromBlocks`. -/
structure Block where
  btype : String
  children : Option (List Span)

/-- `extractTextFromBlocks` from `api/sync-to-webflow.js`: blocks of
`_type === 'block'` with children contribute the concatenation of their
children's text, blocks are joined by a space, and the result is
trimmed. -/
def extractTextFromBlocks (blocks : Option (List Block)) : String :=
  match blocks with
  | none => ""
  | some bs =>
    jsTrim (joinSep " " (bs.map (fun block =>
      if block.btype = "block" then
        match block.children with
        | some cs => joinSep "" (cs.map (fun child => child.text.getD ""))
        | none => ""
      else "")))

/-- An image-bearing field of a creator document
(`cover` / `image` / `studioImage` / `portraitImage`): the asset URL and
the localized alt text. -/
structure ImageField where
  assetUrl : Option String
  altEn : Option String
  altDe : Option String

/-- The fields of a creator document that `mapCreatorFields` reads. -/
structure CreatorItem where
  name : Option String
  lastName : Option String
  slugCurrent : Option String
  cover : ImageField
  image : ImageField
  studioImage : ImageField
  portraitImage : ImageField
  website : Option String
  email : Option String
  birthYear : Option String
  categoryRef : Option String
  associatedLocations : List (Option String)
  biographyEn : Option (List Block)
  biographyDe : Option (List Block)
  portraitEn : Option (List Block)
  portraitDe : Option (List Block)
  nationalityEn : Option String
  nationalityDe : Option String
  specialtiesEn : Option (List String)
  specialtiesDe : Option (List String)

/-- An image field value of the projection:
`url ? { url, alt: altEn || altDe || name || '' } : undefined`. -/
def imageValue (img : ImageField) (fallbackName : Option String) : JValue :=
  match img.assetUrl with
  | some u =>
    if u = "" then JValue.jundef
    else JValue.jobj [("url", JValue.jstr u),
      ("alt", JValue.jstr (jsOrStr img.altEn (jsOrStr img.altDe (jsOrStr fallbackName ""))))]
  | none => JValue.jundef

/-- `mapCreatorFields` from `api/sync-to-webflow.js` (lines 551–592):
the locale-agnostic `baseFields` (name, last-name, slug, the four image
fields, website, email, birth-year, the category relation resolved
through the category identity mapping, and the locations relation list
resolved through the location identity mapping) spread together with
the locale-specific fields (biography, portrait-english, nationality,
specialties).  The global `idMappings.category` / `idMappings.location`
maps are passed explicitly. -/
def mapCreatorFields (catMap locMap : List (String × String))
    (sanityItem : CreatorItem) (locale : String) : FieldMap :=
  let baseFields : FieldMap := [
    ("name", JValue.jstr (jsOrStr sanityItem.name "Untitled")),
    ("last-name", JValue.jstr (jsOrStr sanityItem.lastName "")),
    ("slug", JValue.jstr (jsOrStr sanityItem.slugCurrent (generateSlug sanityItem.name))),
    ("hero-image", imageValue sanityItem.cover sanityItem.name),
    ("profile-image", imageValue sanityItem.image sanityItem.name),
    ("studio-image", imageValue sanityItem.studioImage sanityItem.name),
    ("portrait-image", imageValue sanityItem.portraitImage sanityItem.name),
    ("website", JValue.jstr (jsOrStr sanityItem.website "")),
    ("email", JValue.jstr (jsOrStr sanityItem.email "")),
    ("birth-year",
      match sanityItem.birthYear with
      | some s =>
        if s = "" then JValue.jnull
        else
          match parseInt10 s with
          | some n => JValue.jnum n
          | none => JValue.jnull
      | none => JValue.jnull),
    ("category",
      match sanityItem.categoryRef with
      | some r =>
        if r = "" then JValue.jnull
        else
          match mapGet catMap r with
          | some wid => if wid = "" then JValue.jnull else JValue.jstr wid
          | none => JValue.jnull
      | none => JValue.jnull),
    ("locations", JValue.jarr (sanityItem.associatedLocations.filterMap (fun lref =>
      match lref with
      | some r =>
        if r = "" then none
        else
          match mapGet locMap r with
          | some w => if w = "" then none else some (JValue.jstr w)
          | none => none
      | none => none)))]
  let isGerman := locale = "de-DE" || locale = "de"
  let localeFields : FieldMap := [
    ("biography", JValue.jstr (extractTextFromBlocks
      (if isGerman then sanityItem.biographyDe else sanityItem.biographyEn))),
    ("portrait-english", JValue.jstr (extractTextFromBlocks
      (if isGerman then sanityItem.portraitDe else sanityItem.portraitEn))),
    ("nationality", JValue.jstr
      (if isGerman then jsOrStr sanityItem.nationalityDe ""
       else jsOrStr sanityItem.nationalityEn "")),
    ("specialties", JValue.jstr
      (if isGerman then
        match sanityItem.specialtiesDe with
        | some xs => joinSep ", " xs
        | none => ""
       else
        match sanityItem.specialtiesEn with
        | some xs => joinSep ", " xs
        | none => ""))]
  mergeFields baseFields localeFields

/-- The field data `updateItemGermanLocale` PATCHes to the German
locale: `fieldMapper(actualItem, 'de-DE')` unwrapped
(`result?.fieldData || result || {}`); a mapper failure (or absence)
gives the empty object.  (The artwork-only `workTitle` fallback, which
requires a `workTitle` field creators do not have, only fires when this
map is empty.) -/
def updateItemGermanLocale (fieldMapperResult : Option FieldMap) : FieldMap :=
  fieldMapperResult.getD []

/-! ## Claim C1: hash order-independence and content-sensitivity -/

/-- A creator-style field projection with one scalar field and one
image field whose asset locator is `url`. -/
def c1record (url : String) : FieldMap :=
  [("name", JValue.jstr "Anna"),
   ("hero-image", JValue.jobj [("url", JValue.jstr url), ("alt", JValue.jstr "Anna")])]

/-- C1: the hash is order-independent (last conjunct), but it is NOT
sensitive to an asset locator nested inside an image field: the two
records differ only in the image URL (conjuncts 2 and 3 exhibit the two
distinct URLs), yet `hashObjectStable` gives the same digest, because
the sorted top-level key list is an ECMAScript array replacer that
filters out the nested keys `url`, `alt` and `_hashUrl`, so every image
object serializes as the empty object.  This contradicts the in-code
comment that the URL is folded into the hash so that image changes are
detected. -/
theorem claim_C1_hash_insensitive_to_image_url :
    hashObjectStable (c1record "https://cdn.example.com/img-old.jpg")
        = hashObjectStable (c1record "https://cdn.example.com/img-new.jpg")
      ∧ (extractImageUrls (JValue.jobj (c1record "https://cdn.example.com/img-old.jpg"))).map
          urlString = ["https://cdn.example.com/img-old.jpg"]
      ∧ (extractImageUrls (JValue.jobj (c1record "https://cdn.example.com/img-new.jpg"))).map
          urlString = ["https://cdn.example.com/img-new.jpg"]
      ∧ hashObjectStable [("a", JValue.jstr "1"), ("b", JValue.jstr "2")]
          = hashObjectStable [("b", JValue.jstr "2"), ("a", JValue.jstr "1")] :=
  ⟨rfl, rfl, rfl, rfl⟩

/-! ## Claim C2: idempotence of `syncCollection` -/

/-- Environment for the idempotence scenario: one collection with one
well-behaved source record, a reliable remote, and no operator flags. -/
def c2env : SyncEnv :=
  { mappingKey := "creator"
    fieldMapper := fun it =>
      if it._id = "creator-1" then
        some [("name", JValue.jstr "Anna"), ("slug", JValue.jstr "anna")]
      else none
    germanMapper := fun _ => none
    forceUpdate := false
    singleItem := false
    listFails := false
    createFails := fun _ => false
    updateOutcome := fun _ => UpdOutcome.ok
    freshId := fun sid => "wf-" ++ sid
    limit := none }

/-- The single source record of the C2 scenario. -/
def c2item : SanityItem := ⟨"creator-1", some "anna", none⟩

/-- First run: the record is new and gets created. -/
def c2run1 : SyncRun := syncCollection c2env [c2item] ⟨[], [], []⟩

/-- Second run on the resulting state, with no source change. -/
def c2run2 : SyncRun := syncCollection c2env [c2item] c2run1.state

/-- Third run, for reference: the state converges only now. -/
def c2run3 : SyncRun := syncCollection c2env [c2item] c2run2.state

/-- C2: `syncCollection` is NOT idempotent for created records.  The
first run creates the record (1 create); the second run, with no source
change, classifies it as an update and issues a remote write (1 update,
including a `PATCH` of the record), because after creation the ledger
stores the hash of the created item's returned field data (slug
included) while the second run compares against the hash of the
slug-stripped update projection.  Only the third run is unchanged. -/
theorem claim_C2_second_run_reupdates_created_record :
    c2run1.created = 1 ∧ c2run1.updated = 0 ∧ c2run1.aborted = false
      ∧ c2run2.created = 0 ∧ c2run2.updated = 1
      ∧ Op.updateItem "wf-creator-1" ∈ c2run2.ops
      ∧ c2run3.created = 0 ∧ c2run3.updated = 0 ∧ c2run3.unchanged = 1 := by
  decide

/-! ## Claim C4: the global minimum inter-request interval -/

/-- C4 (amended): consecutive requests are spaced by at least
`MIN_REQUEST_INTERVAL`, measured start-to-start: the shared
`lastRequestTime` is recorded just before each request is issued, and
every later request starts at least 1200 ms after that timestamp,
regardless of which collection or caller issued it. -/
theorem claim_C4_start_to_start_spacing (lastRequestTime : Int) (arrivals : List Int) :
    List.Chain (fun a b => a + MIN_REQUEST_INTERVAL ≤ b) lastRequestTime
      (rlStarts lastRequestTime arrivals) := by
  induction arrivals generalizing lastRequestTime with
  | nil => exact List.Chain.nil
  | cons now rest ih =>
    refine List.Chain.cons ?_ (ih (rlStep lastRequestTime now))
    unfold rlStep
    split <;> omega

/-- C4 counterexample: the interval is not enforced from the END of the
previous request.  A request starts at t = 5000 and runs for 4000 ms,
ending at t = 9000; a call arriving at t = 9000 is issued immediately
(`rlStep 5000 9000 = 9000`), i.e. 0 ms — less than
`MIN_REQUEST_INTERVAL` — after the end of the previous request. -/
theorem claim_C4_counterexample_end_to_start :
    rlStep 5000 (5000 + 4000) = 9000
      ∧ rlStep 5000 (5000 + 4000) - (5000 + 4000) = 0
      ∧ (0 : Int) < MIN_REQUEST_INTERVAL := by
  refine ⟨by decide, by decide, by decide⟩

/-! ## Claim C9: the secondary-locale (German) projection -/

/-- A concrete creator document with content in both locales. -/
def c9item : CreatorItem :=
  { name := some "Anna Schmidt"
    lastName := some "Schmidt"
    slugCurrent := some "anna-schmidt"
    cover := ⟨some "https://cdn.sanity.io/images/cover.jpg", some "Anna cover", none⟩
    image := ⟨none, none, none⟩
    studioImage := ⟨none, none, none⟩
    portraitImage := ⟨none, none, none⟩
    website := some "https://anna.example"
    email := none
    birthYear := some "1970"
    categoryRef := none
    associatedLocations := []
    biographyEn := some [⟨"block", some [⟨some "Bio EN"⟩]⟩]
    biographyDe := some [⟨"block", some [⟨some "Bio DE"⟩]⟩]
    portraitEn := none
    portraitDe := none
    nationalityEn := some "Danish"
    nationalityDe := some "Daenisch"
    specialtiesEn := some ["Glass"]
    specialtiesDe := some ["Glas"] }

/-- C9 counterexample: the German-locale field map that
`updateItemGermanLocale` PATCHes (the full `fieldMapper(item, 'de-DE')`
result) DOES contain structural fields: the slug and the image field
are present (and the biography is the German text, showing this is the
secondary-locale map). -/
theorem claim_C9_counterexample_german_map_has_structural_fields :
    lookupField "slug"
        (updateItemGermanLocale (some (mapCreatorFields [] [] c9item "de-DE")))
        = some (JValue.jstr "anna-schmidt")
      ∧ (lookupField "hero-image"
          (updateItemGermanLocale (some (mapCreatorFields [] [] c9item "de-DE")))).isSome
          = true
      ∧ lookupField "biography"
          (updateItemGermanLocale (some (mapCreatorFields [] [] c9item "de-DE")))
          = some (JValue.jstr "Bio DE") :=
  ⟨rfl, rfl, rfl⟩

/-- C9 (amended): the secondary-locale projection of `mapCreatorFields`
re-sends the structural fields — for every structural key the German
projection holds exactly the value of the primary projection; only
`biography`, `portrait-english`, `nationality` and `specialties` vary
by locale. -/
theorem claim_C9_amended_structural_fields_identical
    (catMap locMap : List (String × String)) (item : CreatorItem) (k : String)
    (hk : k ∈ ["name", "last-name", "slug", "hero-image", "profile-image",
      "studio-image", "portrait-image", "website", "email", "birth-year",
      "category", "locations"]) :
    lookupField k (mapCreatorFields catMap locMap item "de-DE")
      = lookupField k (mapCreatorFields catMap locMap item "en") := by
  fin_cases hk <;> rfl

/-- Witness for the amended C9 theorem at a concrete key and item. -/
theorem claim_C9_amended_witness :
    lookupField "slug" (mapCreatorFields [] [] c9item "de-DE")
      = lookupField "slug" (mapCreatorFields [] [] c9item "en") :=
  claim_C9_amended_structural_fields_identical [] [] c9item "slug" (by decide)

/-! ## Claim C3: retry with exponential backoff on HTTP 429 -/

/-- Helper: if attempts `k, …, k+N-1` answer 429 and attempt `k+N`
succeeds, and `k+N` is within the ceiling, the call returns the success
value with one doubling backoff wait per retry. -/
lemma webflowRequest_success (resp : Nat → WfResponse) :
    ∀ (N k : Nat), k + N ≤ maxRetries →
    (∀ i, k ≤ i → i < k + N → (resp i).status = 429) →
    respOk (resp (k + N)).status = true →
    webflowRequest resp false k =
      ⟨Except.ok (if (resp (k + N)).status = 204 then "" else (resp (k + N)).body),
        (List.range' k N).map (fun i => 2 ^ i * 1000)⟩ := by
  intro N
  induction N with
  | zero =>
    intro k hk h429 hOk
    rw [webflowRequest]
    rw [Nat.add_zero] at hOk
    have hne : ¬((resp k).status = 429) := by
      intro h
      rw [h] at hOk
      exact absurd hOk (by decide)
    by_cases h204 : (resp k).status = 204 <;> simp [hne, hOk, h204]
    decide
  | succ N ih =>
    intro k hk h429 hOk
    rw [webflowRequest]
    have h1 : (resp k).status = 429 := h429 k le_rfl (by omega)
    have h2 : k < maxRetries := by
      unfold maxRetries at *
      omega
    have hidx : k + (N + 1) = k + 1 + N := by omega
    rw [hidx] at hOk ⊢
    have hrec := ih (k + 1) (by omega)
      (fun i hi1 hi2 => h429 i (by omega) (by omega)) hOk
    simp only [h1, h2, decide_True, Bool.and_self, if_true, hrec]
    simp [List.range'_succ]

/-- Helper: if every attempt up to the ceiling answers 429, the call
throws the generic `Webflow API error: 429 …` error after the three
backoff waits. -/
lemma webflowRequest_exhaust (resp : Nat → WfResponse)
    (h : ∀ i, i ≤ maxRetries → (resp i).status = 429) :
    webflowRequest resp false 0 =
      ⟨Except.error ("Webflow API error: 429 " ++ (resp maxRetries).body),
        [1000, 2000, 4000]⟩ := by
  have h0 := h 0 (by decide)
  have h1 := h 1 (by decide)
  have h2 := h 2 (by decide)
  have h3 := h 3 (by decide)
  rw [webflowRequest, webflowRequest, webflowRequest, webflowRequest]
  simp [h0, h1, h2, h3, maxRetries, respOk]
  congr 1

/-- C3 (amended): if the remote returns 429 for the first N ≤ 3 calls
and then succeeds, `webflowRequest` ultimately returns the success
value, with backoff delays doubling per retry (1s, 2s, 4s prefixes);
if 429 persists past the ceiling, it fails — but with the same generic
`Webflow API error: <status> <body>` error used for every other
non-2xx status (here carrying 429), not with a distinct
`RateLimitExhausted` error kind. -/
theorem claim_C3_retry_and_generic_error :
    (∀ (resp : Nat → WfResponse) (N : Nat), N ≤ maxRetries →
      (∀ i, i < N → (resp i).status = 429) →
      respOk (resp N).status = true →
      (webflowRequest resp false 0).result
          = Except.ok (if (resp N).status = 204 then "" else (resp N).body)
        ∧ (webflowRequest resp false 0).waits
          = (List.range N).map (fun i => 2 ^ i * 1000))
    ∧ (∀ resp : Nat → WfResponse, (∀ i, i ≤ maxRetries → (resp i).status = 429) →
      (webflowRequest resp false 0).result
          = Except.error ("Webflow API error: 429 " ++ (resp maxRetries).body)
        ∧ (webflowRequest resp false 0).waits = [1000, 2000, 4000]) := by
  constructor
  · intro resp N hN h429 hOk
    have h := webflowRequest_success resp N 0 (by omega)
      (fun i h1 h2 => h429 i (by omega)) (by simpa using hOk)
    rw [h]
    refine ⟨by simp, ?_⟩
    simp [List.range_eq_range']
  · intro resp h
    rw [webflowRequest_exhaust resp h]
    exact ⟨rfl, rfl⟩

/-- A remote that always rate-limits. -/
def c3resp429 : Nat → WfResponse := fun _ => ⟨429, "Too Many Requests"⟩

/-- A remote that always fails with a 500. -/
def c3resp500 : Nat → WfResponse := fun _ => ⟨500, "ServerError"⟩

/-- A remote that rate-limits twice, then succeeds. -/
def c3respSucc2 : Nat → WfResponse := fun i => if i < 2 then ⟨429, "rl"⟩ else ⟨200, "payload"⟩

/-- C3 counterexample: when the ceiling is exhausted the failure is the
generic remote error (the same `Webflow API error: …` shape a 500
produces), distinguishable only by the status text — there is no
distinct `RateLimitExhausted` error. -/
theorem claim_C3_counterexample_no_distinct_error :
    (webflowRequest c3resp429 false 0).result
        = Except.error "Webflow API error: 429 Too Many Requests"
      ∧ (webflowRequest c3resp429 false 0).waits = [1000, 2000, 4000]
      ∧ (webflowRequest c3resp500 false 0).result
        = Except.error "Webflow API error: 500 ServerError" := by
  refine ⟨?_, ?_, ?_⟩
  · rw [webflowRequest_exhaust c3resp429 (fun i _ => rfl)]
    rfl
  · rw [webflowRequest_exhaust c3resp429 (fun i _ => rfl)]
  · rw [webflowRequest]
    rfl

/-- Witness for the amended C3 theorem: two 429s then success yields
the payload after waits 1s and 2s; persistent 429 yields the generic
429 error after waits 1s, 2s, 4s. -/
theorem claim_C3_retry_witness :
    ((webflowRequest c3respSucc2 false 0).result = Except.ok "payload"
      ∧ (webflowRequest c3respSucc2 false 0).waits = [1000, 2000])
    ∧ ((webflowRequest c3resp429 false 0).result
        = Except.error "Webflow API error: 429 Too Many Requests"
      ∧ (webflowRequest c3resp429 false 0).waits = [1000, 2000, 4000]) := by
  constructor
  · have h := claim_C3_retry_and_generic_error.1 c3respSucc2 2 (by decide)
      (by intro i hi; interval_cases i <;> rfl) (by rfl)
    simpa using h
  · have h := claim_C3_retry_and_generic_error.2 c3resp429 (fun i _ => rfl)
    simpa using h

lemma staleCheck_ops (env : SyncEnv) (store : List WfItem)
    (m h : List (String × String)) (item : SanityItem) (ex0 : Option String)
    (ops : List Op) :
    (staleCheck env store m h item ex0 ops).ops = ops
    ∨ ∃ id, (staleCheck env store m h item ex0 ops).ops = ops ++ [Op.getItem id] := by
  cases ex0 with
  | none => exact Or.inl rfl
  | some eid =>
    refine Or.inr ⟨eid, ?_⟩
    simp only [staleCheck]
    split <;> rfl

lemma classifyOne_ops (env : SyncEnv) (store : List WfItem)
    (bySlug : List (String × WfItem)) (acc : ClassAcc) (item : SanityItem) :
    ∀ op ∈ (classifyOne env store bySlug acc item).ops,
      op ∈ acc.ops ∨ ∃ id, op = Op.getItem id := by
  intro op hop
  unfold classifyOne at hop
  cases hm : env.fieldMapper item with
  | none =>
    rw [hm] at hop
    exact Or.inl hop
  | some mapped =>
    rw [hm] at hop
    simp only at hop
    set stale := staleCheck env store acc.mappings acc.hashes item
      (jsStrOr (mapGet acc.mappings item._id) item.webflowId) acc.ops with hstale
    rcases staleCheck_ops env store acc.mappings acc.hashes item
      (jsStrOr (mapGet acc.mappings item._id) item.webflowId) acc.ops with h1 | ⟨id1, h1⟩ <;>
      rw [← hstale] at h1 <;>
      rcases had : (adoptBySlug bySlug stale.mappings item mapped stale.existingId).2 with _ | eid <;>
      rw [had] at hop
    · rw [h1] at hop
      exact Or.inl hop
    · simp only [apply_ite ClassAcc.ops, ite_self] at hop
      rw [h1] at hop
      split at hop
      · rcases List.mem_append.mp hop with hop | hop
        · exact Or.inl hop
        · exact Or.inr ⟨_, List.mem_singleton.mp hop⟩
      · exact Or.inl hop
    · rw [h1] at hop
      rcases List.mem_append.mp hop with hop | hop
      · exact Or.inl hop
      · exact Or.inr ⟨_, List.mem_singleton.mp hop⟩
    · simp only [apply_ite ClassAcc.ops, ite_self] at hop
      rw [h1] at hop
      split at hop
      · rcases List.mem_append.mp hop with hop | hop
        · rcases List.mem_append.mp hop with hop2 | hop2
          · exact Or.inl hop2
          · exact Or.inr ⟨_, List.mem_singleton.mp hop2⟩
        · exact Or.inr ⟨_, List.mem_singleton.mp hop⟩
      · rcases List.mem_append.mp hop with hop | hop
        · exact Or.inl hop
        · exact Or.inr ⟨_, List.mem_singleton.mp hop⟩

lemma classifyOne_ops_append (env : SyncEnv) (store : List WfItem)
    (bySlug : List (String × WfItem)) (acc : ClassAcc) (item : SanityItem) :
    ∃ l, (classifyOne env store bySlug acc item).ops = acc.ops ++ l
      ∧ ∀ op ∈ l, ∃ id, op = Op.getItem id := by
  unfold classifyOne
  cases hm : env.fieldMapper item with
  | none => exact ⟨[], by simp, by simp⟩
  | some mapped =>
    simp only
    set stale := staleCheck env store acc.mappings acc.hashes item
      (jsStrOr (mapGet acc.mappings item._id) item.webflowId) acc.ops with hstale
    rcases staleCheck_ops env store acc.mappings acc.hashes item
      (jsStrOr (mapGet acc.mappings item._id) item.webflowId) acc.ops with h1 | ⟨id1, h1⟩ <;>
      rw [← hstale] at h1 <;>
      rcases had : (adoptBySlug bySlug stale.mappings item mapped stale.existingId).2 with _ | eid <;>
      simp only [had]
    · exact ⟨[], by simp [h1], by simp⟩
    · simp only [apply_ite ClassAcc.ops, ite_self]
      split
      · exact ⟨[Op.getItem eid], by simp [h1], by simp⟩
      · exact ⟨[], by simp [h1], by simp⟩
    · exact ⟨[Op.getItem id1], by simp [h1], by simp⟩
    · simp only [apply_ite ClassAcc.ops, ite_self]
      split
      · exact ⟨[Op.getItem id1, Op.getItem eid], by simp [h1], by simp⟩
      · exact ⟨[Op.getItem id1], by simp [h1], by simp⟩

lemma classifyAll_ops_append (env : SyncEnv) (store : List WfItem)
    (bySlug : List (String × WfItem)) :
    ∀ (items : List SanityItem) (acc : ClassAcc),
    ∃ l, (classifyAll env store bySlug items acc).ops = acc.ops ++ l
      ∧ ∀ op ∈ l, ∃ id, op = Op.getItem id := by
  intro items
  induction items with
  | nil => exact fun acc => ⟨[], by simp [classifyAll], by simp⟩
  | cons item rest ih =>
    intro acc
    obtain ⟨l1, hl1, hk1⟩ := classifyOne_ops_append env store bySlug acc item
    obtain ⟨l2, hl2, hk2⟩ := ih (classifyOne env store bySlug acc item)
    refine ⟨l1 ++ l2, ?_, ?_⟩
    · show (classifyAll env store bySlug (item :: rest) acc).ops = _
      unfold classifyAll at *
      rw [List.foldl_cons, hl2, hl1, List.append_assoc]
    · intro op hop
      rcases List.mem_append.mp hop with h | h
      · exact hk1 op h
      · exact hk2 op h

lemma orphanPass_ops_deletes (env : SyncEnv) (sd : List SanityItem)
    (fetched : List WfItem) (bySlug : List (String × WfItem)) (c : ClassAcc)
    (store : List WfItem) :
    (orphanPass env sd fetched bySlug c store).ops
      = (orphanPass env sd fetched bySlug c store).deletedIds.map Op.deleteItem := by
  unfold orphanPass
  split
  · rfl
  · dsimp only
    split
    · rfl
    · rfl

lemma orphanPass_skip (env : SyncEnv) (sd : List SanityItem)
    (fetched : List WfItem) (bySlug : List (String × WfItem)) (c : ClassAcc)
    (store : List WfItem) (h : env.singleItem = true ∨ fetched = []) :
    orphanPass env sd fetched bySlug c store = ⟨c.mappings, c.hashes, store, [], []⟩ := by
  unfold orphanPass
  rcases h with h | h
  · simp [h]
  · subst h
    have he : orphanedOf env sd [] bySlug c = [] := rfl
    simp [he]

lemma createWebflowItems_ops (env : SyncEnv) :
    ∀ (items : List NewItem) (store : List WfItem),
    ∀ op ∈ (createWebflowItems env items store).ops,
      ∃ ni ∈ items, op = Op.createItem (env.freshId ni.item._id)
        ∨ op = Op.patchGermanLocale (env.freshId ni.item._id)
        ∨ op = Op.publishItems [env.freshId ni.item._id] := by
  intro items
  induction items with
  | nil => intro store op hop; simp [createWebflowItems] at hop
  | cons ni rest ih =>
    intro store op hop
    unfold createWebflowItems at hop
    split at hop
    · simp at hop
    · simp only [apply_ite CreateOut.ops, ite_self] at hop
      cases hgf : ni.germanFieldData <;> simp only [hgf] at hop <;>
        simp only [List.mem_append, List.mem_singleton, List.mem_cons,
          List.not_mem_nil, or_false, false_or] at hop
      · rcases hop with (rfl | rfl) | hop
        · exact ⟨ni, List.mem_cons_self _ _, Or.inl rfl⟩
        · exact ⟨ni, List.mem_cons_self _ _, Or.inr (Or.inr rfl)⟩
        · obtain ⟨ni2, hni2, h2⟩ := ih _ op hop
          exact ⟨ni2, List.mem_cons_of_mem _ hni2, h2⟩
      · rcases hop with ((rfl | rfl) | rfl) | hop
        · exact ⟨ni, List.mem_cons_self _ _, Or.inl rfl⟩
        · exact ⟨ni, List.mem_cons_self _ _, Or.inr (Or.inl rfl)⟩
        · exact ⟨ni, List.mem_cons_self _ _, Or.inr (Or.inr rfl)⟩
        · obtain ⟨ni2, hni2, h2⟩ := ih _ op hop
          exact ⟨ni2, List.mem_cons_of_mem _ hni2, h2⟩

lemma createWebflowItems_no_abort (env : SyncEnv) :
    ∀ (items : List NewItem) (store : List WfItem),
    (∀ ni ∈ items, env.createFails ni.item._id = false) →
    (createWebflowItems env items store).aborted = false := by
  intro items
  induction items with
  | nil => intro store _; rfl
  | cons ni rest ih =>
    intro store hok
    unfold createWebflowItems
    have h1 : env.createFails ni.item._id = false := hok ni (List.mem_cons_self _ _)
    rw [h1]
    simp only [Bool.false_eq_true, if_false]
    have h2 := ih (store ++ [⟨env.freshId ni.item._id,
      ni.fieldData.filter (fun p => !p.2.isUndef)⟩])
      (fun ni2 hni2 => hok ni2 (List.mem_cons_of_mem _ hni2))
    rw [h2]
    simp

lemma updatePhase_ops (env : SyncEnv) :
    ∀ (items : List UpdItem) (store : List WfItem) (hashes : List (String × String)),
    ∀ op ∈ (updatePhase env items store hashes).ops,
      ∃ u ∈ items, op = Op.updateItem u.webflowId ∨ op = Op.patchGermanLocale u.webflowId := by
  intro items
  induction items with
  | nil => intro store hashes op hop; simp [updatePhase] at hop
  | cons u rest ih =>
    intro store hashes op hop
    unfold updatePhase at hop
    rcases hout : env.updateOutcome u.webflowId with _ | _ | _ | _ <;>
      rw [hout] at hop <;>
      simp only [List.mem_append, List.mem_cons, List.mem_singleton,
        List.not_mem_nil, or_false, false_or] at hop
    · rcases hop with (rfl | rfl) | hop
      · exact ⟨u, List.mem_cons_self _ _, Or.inl rfl⟩
      · exact ⟨u, List.mem_cons_self _ _, Or.inr rfl⟩
      · obtain ⟨u2, hu2, h2⟩ := ih _ _ op hop
        exact ⟨u2, List.mem_cons_of_mem _ hu2, h2⟩
    · rcases hop with rfl | hop
      · exact ⟨u, List.mem_cons_self _ _, Or.inl rfl⟩
      · obtain ⟨u2, hu2, h2⟩ := ih _ _ op hop
        exact ⟨u2, List.mem_cons_of_mem _ hu2, h2⟩
    · rcases hop with (rfl | rfl | rfl) | hop
      · exact ⟨u, List.mem_cons_self _ _, Or.inl rfl⟩
      · exact ⟨u, List.mem_cons_self _ _, Or.inl rfl⟩
      · exact ⟨u, List.mem_cons_self _ _, Or.inr rfl⟩
      · obtain ⟨u2, hu2, h2⟩ := ih _ _ op hop
        exact ⟨u2, List.mem_cons_of_mem _ hu2, h2⟩
    · rcases hop with rfl | rfl
      · exact ⟨u, List.mem_cons_self _ _, Or.inl rfl⟩
      · exact ⟨u, List.mem_cons_self _ _, Or.inl rfl⟩

lemma updatePhase_no_abort (env : SyncEnv) :
    ∀ (items : List UpdItem) (store : List WfItem) (hashes : List (String × String)),
    (∀ u ∈ items, env.updateOutcome u.webflowId ≠ UpdOutcome.fail429RetryFail) →
    (updatePhase env items store hashes).aborted = false := by
  intro items
  induction items with
  | nil => intro store hashes _; rfl
  | cons u rest ih =>
    intro store hashes hok
    unfold updatePhase
    rcases hout : env.updateOutcome u.webflowId with _ | _ | _ | _
    · exact ih _ _ (fun u2 h => hok u2 (List.mem_cons_of_mem _ h))
    · exact ih _ _ (fun u2 h => hok u2 (List.mem_cons_of_mem _ h))
    · exact ih _ _ (fun u2 h => hok u2 (List.mem_cons_of_mem _ h))
    · exact absurd hout (hok u (List.mem_cons_self _ _))

lemma updatePhase_attempts_all (env : SyncEnv) :
    ∀ (items : List UpdItem) (store : List WfItem) (hashes : List (String × String)),
    (∀ u ∈ items, env.updateOutcome u.webflowId ≠ UpdOutcome.fail429RetryFail) →
    ∀ u ∈ items, Op.updateItem u.webflowId ∈ (updatePhase env items store hashes).ops := by
  intro items
  induction items with
  | nil => intro _ _ _ u hu; simp at hu
  | cons u0 rest ih =>
    intro store hashes hok u hu
    have hok' : ∀ x ∈ rest, env.updateOutcome x.webflowId ≠ UpdOutcome.fail429RetryFail :=
      fun x h => hok x (List.mem_cons_of_mem _ h)
    rcases List.mem_cons.mp hu with rfl | hu2
    · unfold updatePhase
      rcases hout : env.updateOutcome u.webflowId with _ | _ | _ | _ <;> simp
    · unfold updatePhase
      rcases hout : env.updateOutcome u0.webflowId with _ | _ | _ | _
      · exact List.mem_append_right _ (ih _ _ hok' u hu2)
      · exact List.mem_append_right _ (ih _ _ hok' u hu2)
      · exact List.mem_append_right _ (ih _ _ hok' u hu2)
      · exact absurd hout (hok u0 (List.mem_cons_self _ _))

/-- The initial classification accumulator of a run. -/
def initAcc (st : SyncState) : ClassAcc :=
  ⟨st.idMappings, st.persistentHashes, [], [], 0, [Op.bulkFetch]⟩

/-- The source list after the cap. -/
def cappedData (env : SyncEnv) (sanity : List SanityItem) : List SanityItem :=
  match env.limit with
  | some l => sanity.take l
  | none => sanity

/-- The classification result of a run. -/
def runClass (env : SyncEnv) (sanity : List SanityItem) (st : SyncState) : ClassAcc :=
  classifyAll env st.webflowItems (buildBySlug (getWebflowItems env st))
    (cappedData env sanity) (initAcc st)

/-- The orphan-pass result of a run. -/
def runOrphan (env : SyncEnv) (sanity : List SanityItem) (st : SyncState) : OrphanOut :=
  orphanPass env (cappedData env sanity) (getWebflowItems env st)
    (buildBySlug (getWebflowItems env st)) (runClass env sanity st) st.webflowItems

/-- The creation-phase result of a run. -/
def runCreate (env : SyncEnv) (sanity : List SanityItem) (st : SyncState) : CreateOut :=
  createWebflowItems env (runClass env sanity st).newItems (runOrphan env sanity st).store

/-- The post-creation bookkeeping result of a run. -/
def runRecord (env : SyncEnv) (sanity : List SanityItem) (st : SyncState) :
    List (String × String) × List (String × String) :=
  recordCreated env ((runCreate env sanity st).results.zip (runClass env sanity st).newItems)
    (runOrphan env sanity st).mappings (runOrphan env sanity st).hashes

/-- The update-phase result of a run. -/
def runUpdate (env : SyncEnv) (sanity : List SanityItem) (st : SyncState) : UpdateOut :=
  updatePhase env (runClass env sanity st).updateItems (runCreate env sanity st).store
    (runRecord env sanity st).2

/-- `syncCollection` expressed through its named phases. -/
lemma syncCollection_def (env : SyncEnv) (sanity : List SanityItem) (st : SyncState) :
    syncCollection env sanity st =
      if (runCreate env sanity st).aborted then
        { state := ⟨(runOrphan env sanity st).mappings, (runOrphan env sanity st).hashes,
            (runCreate env sanity st).store⟩,
          ops := (runClass env sanity st).ops ++ (runOrphan env sanity st).ops
            ++ (runCreate env sanity st).ops,
          created := (runCreate env sanity st).results.length, updated := 0,
          unchanged := (runClass env sanity st).existingCount
            - (runClass env sanity st).updateItems.length,
          aborted := true }
      else
        { state := ⟨(runRecord env sanity st).1, (runUpdate env sanity st).hashes,
            (runUpdate env sanity st).store⟩,
          ops := (runClass env sanity st).ops ++ (runOrphan env sanity st).ops
            ++ (runCreate env sanity st).ops ++ (runUpdate env sanity st).ops
            ++ (if (runUpdate env sanity st).aborted
                  || (runUpdate env sanity st).updatedItemIds.isEmpty then []
                else [Op.publishItems (runUpdate env sanity st).updatedItemIds]),
          created := (runCreate env sanity st).results.length,
          updated := (runUpdate env sanity st).updatedCount,
          unchanged := (runClass env sanity st).existingCount
            - (runClass env sanity st).updateItems.length,
          aborted := (runUpdate env sanity st).aborted } := rfl

lemma syncCollection_ops_decomp (env : SyncEnv) (sanity : List SanityItem) (st : SyncState) :
    ∃ rest,
      (syncCollection env sanity st).ops
        = (runClass env sanity st).ops ++ (runOrphan env sanity st).ops
            ++ (runCreate env sanity st).ops ++ rest
      ∧ ∀ op ∈ rest,
          (∃ u ∈ (runClass env sanity st).updateItems,
            op = Op.updateItem u.webflowId ∨ op = Op.patchGermanLocale u.webflowId)
          ∨ ∃ ids, op = Op.publishItems ids := by
  rw [syncCollection_def]
  split
  · exact ⟨[], by simp, by simp⟩
  · refine ⟨(runUpdate env sanity st).ops
      ++ (if (runUpdate env sanity st).aborted
            || (runUpdate env sanity st).updatedItemIds.isEmpty then []
          else [Op.publishItems (runUpdate env sanity st).updatedItemIds]), ?_, ?_⟩
    · simp [List.append_assoc]
    · intro op hop
      rcases List.mem_append.mp hop with h | h
      · exact Or.inl (updatePhase_ops env _ _ _ op h)
      · right
        split at h
        · simp at h
        · exact ⟨_, List.mem_singleton.mp h⟩

lemma syncCollection_no_delete (env : SyncEnv) (sanity : List SanityItem) (st : SyncState)
    (hdel : (runOrphan env sanity st).ops = []) :
    ∀ id, Op.deleteItem id ∉ (syncCollection env sanity st).ops := by
  intro id hmem
  obtain ⟨rest, hops, hrest⟩ := syncCollection_ops_decomp env sanity st
  rw [hops] at hmem
  rcases List.mem_append.mp hmem with h | h
  · rcases List.mem_append.mp h with h2 | h2
    · rcases List.mem_append.mp h2 with h3 | h3
      · obtain ⟨l, hl, hk⟩ := classifyAll_ops_append env st.webflowItems
          (buildBySlug (getWebflowItems env st)) (cappedData env sanity) (initAcc st)
        unfold runClass at h3
        rw [hl] at h3
        rcases List.mem_append.mp h3 with h4 | h4
        · simp [initAcc] at h4
        · obtain ⟨id2, hid2⟩ := hk _ h4
          exact Op.noConfusion hid2
      · rw [hdel] at h3
        simp at h3
    · obtain ⟨ni, _, h3⟩ := createWebflowItems_ops env _ _ _ h2
      rcases h3 with h3 | h3 | h3 <;> exact Op.noConfusion h3
  · rcases hrest _ h with ⟨u, _, h2 | h2⟩ | ⟨ids, h2⟩ <;> exact Op.noConfusion h2

lemma syncCollection_bulkFetch (env : SyncEnv) (sanity : List SanityItem) (st : SyncState) :
    Op.bulkFetch ∈ (syncCollection env sanity st).ops := by
  obtain ⟨rest, hops, _⟩ := syncCollection_ops_decomp env sanity st
  rw [hops]
  obtain ⟨l, hl, _⟩ := classifyAll_ops_append env st.webflowItems
    (buildBySlug (getWebflowItems env st)) (cappedData env sanity) (initAcc st)
  refine List.mem_append_left _ (List.mem_append_left _ (List.mem_append_left _ ?_))
  unfold runClass
  rw [hl]
  exact List.mem_append_left _ (by simp [initAcc])

lemma classifyOne_skip (env : SyncEnv) (store : List WfItem)
    (bySlug : List (String × WfItem)) (acc : ClassAcc) (item : SanityItem)
    (h : env.fieldMapper item = none) :
    classifyOne env store bySlug acc item = acc := by
  unfold classifyOne
  rw [h]

/-- C10: if the bulk listing of existing destination records fails,
`getWebflowItems` returns the empty list instead of raising, and
consequently the orphan set is empty and the run issues no delete
operation for the collection: a listing failure can never cause mass
deletion. -/
theorem claim_C10_listing_failure_no_deletes (env : SyncEnv) (sanity : List SanityItem)
    (st : SyncState) (hList : env.listFails = true) :
    getWebflowItems env st = []
      ∧ ∀ id, Op.deleteItem id ∉ (syncCollection env sanity st).ops := by
  have hfetch : getWebflowItems env st = [] := by simp [getWebflowItems, hList]
  refine ⟨hfetch, ?_⟩
  apply syncCollection_no_delete
  unfold runOrphan
  rw [orphanPass_skip _ _ _ _ _ _ (Or.inr hfetch)]

/-- C6 (amended): in single-item mode the orphan pass is skipped, so no
destination record is deleted in that run; however the bulk fetch of
all existing destination records IS still performed (it is
unconditional in `syncCollection`). -/
theorem claim_C6_amended_no_bulk_skip_but_no_deletes (env : SyncEnv)
    (sanity : List SanityItem) (st : SyncState) (hSingle : env.singleItem = true) :
    (∀ id, Op.deleteItem id ∉ (syncCollection env sanity st).ops)
      ∧ Op.bulkFetch ∈ (syncCollection env sanity st).ops := by
  refine ⟨?_, syncCollection_bulkFetch env sanity st⟩
  apply syncCollection_no_delete
  unfold runOrphan
  rw [orphanPass_skip _ _ _ _ _ _ (Or.inl hSingle)]

def c6env : SyncEnv :=
  { mappingKey := "creator"
    fieldMapper := fun it =>
      if it._id = "creator-X" then
        some [("name", JValue.jstr "X"), ("slug", JValue.jstr "x")]
      else none
    germanMapper := fun _ => none
    forceUpdate := false
    singleItem := true
    listFails := false
    createFails := fun _ => false
    updateOutcome := fun _ => UpdOutcome.ok
    freshId := fun sid => "wf-" ++ sid
    limit := none }

def c6st : SyncState :=
  ⟨[("creator-X", "wf-X")], [],
    [⟨"wf-X", [("name", JValue.jstr "X"), ("slug", JValue.jstr "x")]⟩,
     ⟨"wf-D", [("name", JValue.jstr "D"), ("slug", JValue.jstr "d")]⟩]⟩

def c6run : SyncRun := syncCollection c6env [⟨"creator-X", some "x", none⟩] c6st

/-- C6 counterexample: in a single-item run the trace contains the bulk
listing of all existing destination records — the claim that the bulk
fetch is not performed in single-item mode is false. -/
theorem claim_C6_counterexample_bulk_fetch_performed :
    c6env.singleItem = true ∧ Op.bulkFetch ∈ c6run.ops := by decide

/-- Witness for the amended C6 theorem: in the concrete single-item
run, the unrelated destination record is not deleted, and the bulk
fetch happens. -/
theorem claim_C6_witness :
    Op.deleteItem "wf-D" ∉ c6run.ops ∧ Op.bulkFetch ∈ c6run.ops :=
  ⟨(claim_C6_amended_no_bulk_skip_but_no_deletes c6env _ c6st rfl).1 "wf-D",
    (claim_C6_amended_no_bulk_skip_but_no_deletes c6env _ c6st rfl).2⟩

def c8env : SyncEnv :=
  { mappingKey := "creator"
    fieldMapper := fun it => some [("name", JValue.jstr it._id), ("slug", JValue.jstr it._id)]
    germanMapper := fun _ => none
    forceUpdate := false
    singleItem := false
    listFails := false
    createFails := fun sid => sid = "B"
    updateOutcome := fun _ => UpdOutcome.ok
    freshId := fun sid => "wf-" ++ sid
    limit := none }

def c8run : SyncRun :=
  syncCollection c8env [⟨"A", none, none⟩, ⟨"B", none, none⟩, ⟨"C", none, none⟩] ⟨[], [], []⟩

/-- C8 counterexample: a create failure for one item aborts the
collection run (`createWebflowItems` rethrows): with records A, B, C
all new and the creation of B failing, the run is aborted, A was
created, and C is never created nor updated — the remaining items are
NOT processed. -/
theorem claim_C8_counterexample_create_failure_aborts :
    c8run.aborted = true
      ∧ Op.createItem "wf-A" ∈ c8run.ops
      ∧ Op.createItem "wf-C" ∉ c8run.ops
      ∧ Op.updateItem "wf-C" ∉ c8run.ops := by decide

/-- C8 (amended): a mapping/projection failure only skips its record —
the classification of the other records is unchanged; the collection
run is never aborted when no create fails and no update hits the
429-retry-then-fail path; and within the update loop every item is
attempted regardless of other items' non-aborting failures.  (A create
failure, by contrast, aborts the run — see the counterexample.) -/
theorem claim_C8_amended_failure_semantics :
    (∀ (env : SyncEnv) (store : List WfItem) (bySlug : List (String × WfItem))
        (acc : ClassAcc) (item : SanityItem) (l1 l2 : List SanityItem),
      env.fieldMapper item = none →
      classifyAll env store bySlug (l1 ++ item :: l2) acc
        = classifyAll env store bySlug (l1 ++ l2) acc)
    ∧ (∀ (env : SyncEnv) (sanity : List SanityItem) (st : SyncState),
      (∀ sid, env.createFails sid = false) →
      (∀ id, env.updateOutcome id ≠ UpdOutcome.fail429RetryFail) →
      (syncCollection env sanity st).aborted = false)
    ∧ (∀ (env : SyncEnv) (items : List UpdItem) (store : List WfItem)
        (hashes : List (String × String)),
      (∀ u ∈ items, env.updateOutcome u.webflowId ≠ UpdOutcome.fail429RetryFail) →
      ∀ u ∈ items, Op.updateItem u.webflowId ∈ (updatePhase env items store hashes).ops) := by
  refine ⟨?_, ?_, fun env items store hashes h u hu => updatePhase_attempts_all env items store hashes h u hu⟩
  · intro env store bySlug acc item l1 l2 h
    unfold classifyAll
    rw [List.foldl_append, List.foldl_append, List.foldl_cons,
      classifyOne_skip env store bySlug _ item h]
  · intro env sanity st hc hu
    rw [syncCollection_def]
    have hcr : (runCreate env sanity st).aborted = false := by
      unfold runCreate
      exact createWebflowItems_no_abort env _ _ (fun ni _ => hc ni.item._id)
    rw [hcr]
    simp only [Bool.false_eq_true, if_false]
    unfold runUpdate
    exact updatePhase_no_abort env _ _ _ (fun u _ => hu u.webflowId)

def c8okEnv : SyncEnv :=
  { mappingKey := "creator"
    fieldMapper := fun it => some [("name", JValue.jstr it._id), ("slug", JValue.jstr it._id)]
    germanMapper := fun _ => none
    forceUpdate := false
    singleItem := false
    listFails := false
    createFails := fun _ => false
    updateOutcome := fun _ => UpdOutcome.ok
    freshId := fun sid => "wf-" ++ sid
    limit := none }

def c8skipEnv : SyncEnv :=
  { mappingKey := "creator"
    fieldMapper := fun it =>
      if it._id = "bad" then none
      else some [("name", JValue.jstr it._id), ("slug", JValue.jstr it._id)]
    germanMapper := fun _ => none
    forceUpdate := false
    singleItem := false
    listFails := false
    createFails := fun _ => false
    updateOutcome := fun _ => UpdOutcome.ok
    freshId := fun sid => "wf-" ++ sid
    limit := none }

def c8updEnv : SyncEnv :=
  { mappingKey := "creator"
    fieldMapper := fun it => some [("name", JValue.jstr it._id), ("slug", JValue.jstr it._id)]
    germanMapper := fun _ => none
    forceUpdate := false
    singleItem := false
    listFails := false
    createFails := fun _ => false
    updateOutcome := fun id => if id = "w1" then UpdOutcome.failOther else UpdOutcome.ok
    freshId := fun sid => "wf-" ++ sid
    limit := none }

def c8u1 : UpdItem := ⟨⟨"s1", none, none⟩, "w1", [], none, "h1", "creator:s1"⟩

def c8u2 : UpdItem := ⟨⟨"s2", none, none⟩, "w2", [], none, "h2", "creator:s2"⟩

/-- Witness for the amended C8 theorem at concrete inputs: a skipped
record leaves classification unchanged, a clean run does not abort, and
an update is attempted after an earlier item's non-429 failure. -/
theorem claim_C8_amended_witness :
    (classifyAll c8skipEnv [] [] [⟨"bad", none, none⟩] ⟨[], [], [], [], 0, []⟩
        = classifyAll c8skipEnv [] [] [] ⟨[], [], [], [], 0, []⟩)
      ∧ (syncCollection c8okEnv [⟨"A", none, none⟩] ⟨[], [], []⟩).aborted = false
      ∧ Op.updateItem "w2" ∈ (updatePhase c8updEnv [c8u1, c8u2] [] []).ops := by
  refine ⟨?_, ?_, ?_⟩
  · have h := claim_C8_amended_failure_semantics.1 c8skipEnv [] [] ⟨[], [], [], [], 0, []⟩
      ⟨"bad", none, none⟩ [] [] (by rfl)
    simpa using h
  · exact claim_C8_amended_failure_semantics.2.1 c8okEnv _ _ (fun _ => rfl) (fun _ h => UpdOutcome.noConfusion h)
  · refine claim_C8_amended_failure_semantics.2.2 c8updEnv [c8u1, c8u2] [] [] ?_ c8u2
      (List.mem_cons_of_mem _ (List.mem_cons_self _ _))
    intro u hu
    rcases List.mem_cons.mp hu with rfl | hu2
    · decide
    · rcases List.mem_cons.mp hu2 with rfl | hu3
      · decide
      · simp at hu3

lemma lookupField_removeField_self (k : String) :
    ∀ m : FieldMap, lookupField k (removeField k m) = none := by
  intro m
  induction m with
  | nil => rfl
  | cons kv rest ih =>
    obtain ⟨k', v⟩ := kv
    unfold removeField
    by_cases h : k' = k
    · rw [if_pos h]
      exact ih
    · rw [if_neg h]
      unfold lookupField
      rw [if_neg h]
      exact ih

/-- C7 (amended): for a source record with a resolved live destination
id, the update-candidate projection excludes the slug field, and the
record is classified unchanged if and only if the hash of that
projection equals the ledger entry, no force-update flag is set, AND
the image-URL comparison against the destination's current item
reports no change; moreover every remote `updateItem` write of a run
targets the destination id of some record classified as an update, so
an unchanged record receives no write. -/
theorem claim_C7_amended_unchanged_iff (env : SyncEnv) (store : List WfItem)
    (bySlug : List (String × WfItem)) (acc : ClassAcc) (item : SanityItem)
    (m : FieldMap) (eid : String)
    (hm : env.fieldMapper item = some m)
    (hmap : mapGet acc.mappings item._id = some eid)
    (heid : ¬(eid = ""))
    (hlive : (storeFind store eid).isSome = true) :
    lookupField "slug" (removeField "slug" m) = none
    ∧ ((classifyOne env store bySlug acc item).updateItems = acc.updateItems
        ↔ (mapGet acc.hashes (env.mappingKey ++ ":" ++ item._id)
              = some (hashObjectStable (removeField "slug" m))
            ∧ env.forceUpdate = false
            ∧ (if !(extractImageUrls (JValue.jobj (removeField "slug" m))).isEmpty
                then checkIfImagesChanged store eid
                  (extractImageUrls (JValue.jobj (removeField "slug" m)))
                else false) = false))
    ∧ (∀ (sanity : List SanityItem) (st : SyncState) (id : String),
        Op.updateItem id ∈ (syncCollection env sanity st).ops →
        ∃ u ∈ (runClass env sanity st).updateItems, id = u.webflowId) := by
  refine ⟨lookupField_removeField_self "slug" m, ?_, ?_⟩
  · unfold classifyOne
    rw [hm]
    simp only [hmap, jsStrOr, if_neg heid, staleCheck, hlive, if_true, adoptBySlug]
    simp only [apply_ite ClassAcc.updateItems]
    set C := (!(mapGet acc.hashes (env.mappingKey ++ ":" ++ item._id)
        == some (hashObjectStable (removeField "slug" m))) || env.forceUpdate
        || (if !(extractImageUrls (JValue.jobj (removeField "slug" m))).isEmpty
            then checkIfImagesChanged store eid
              (extractImageUrls (JValue.jobj (removeField "slug" m)))
            else false)) with hC
    by_cases hc : C = true
    · rw [if_pos hc]
      constructor
      · intro habs
        exact absurd (congrArg List.length habs) (by simp)
      · intro ⟨h1, h2, h3⟩
        rw [hC] at hc
        rw [h1, h2, h3] at hc
        simp at hc
    · rw [if_neg hc]
      constructor
      · intro _
        rw [hC] at hc
        simp only [Bool.or_eq_true, not_or, Bool.not_eq_true, Bool.not_eq_false] at hc
        obtain ⟨⟨hh, hf⟩, hi⟩ := hc
        exact ⟨by simpa using hh, hf, hi⟩
      · intro _
        rfl
  · intro sanity st id hmem
    obtain ⟨rest, hops, hrest⟩ := syncCollection_ops_decomp env sanity st
    rw [hops] at hmem
    rcases List.mem_append.mp hmem with h | h
    · rcases List.mem_append.mp h with h2 | h2
      · rcases List.mem_append.mp h2 with h3 | h3
        · obtain ⟨l, hl, hk⟩ := classifyAll_ops_append env st.webflowItems
            (buildBySlug (getWebflowItems env st)) (cappedData env sanity) (initAcc st)
          unfold runClass at h3
          rw [hl] at h3
          rcases List.mem_append.mp h3 with h4 | h4
          · simp [initAcc] at h4
          · obtain ⟨id2, hid2⟩ := hk _ h4
            exact Op.noConfusion hid2
        · unfold runOrphan at h3
          rw [orphanPass_ops_deletes] at h3
          obtain ⟨id2, _, hid2⟩ := List.mem_map.mp h3
          exact Op.noConfusion hid2
      · obtain ⟨ni, _, h3⟩ := createWebflowItems_ops env _ _ _ h2
        rcases h3 with h3 | h3 | h3 <;> exact Op.noConfusion h3
    · rcases hrest _ h with ⟨u, hu, h2 | h2⟩ | ⟨ids, h2⟩
      · obtain rfl : id = u.webflowId := by injection h2
        exact ⟨u, hu, rfl⟩
      · exact absurd h2 (by intro h3; exact Op.noConfusion h3)
      · exact absurd h2 (by intro h3; exact Op.noConfusion h3)

def c7m : FieldMap :=
  [("name", JValue.jstr "Anna"), ("slug", JValue.jstr "anna"),
   ("hero-image", JValue.jobj
     [("url", JValue.jstr "https://img.example/new.jpg"), ("alt", JValue.jstr "A")])]

def c7env : SyncEnv :=
  { mappingKey := "creator"
    fieldMapper := fun it => if it._id = "creator-2" then some c7m else none
    germanMapper := fun _ => none
    forceUpdate := false
    singleItem := false
    listFails := false
    createFails := fun _ => false
    updateOutcome := fun _ => UpdOutcome.ok
    freshId := fun sid => "wf-" ++ sid
    limit := none }

def c7st : SyncState :=
  ⟨[("creator-2", "wf-2")],
   [("creator:creator-2", hashObjectStable (removeField "slug" c7m))],
   [⟨"wf-2",
     [("name", JValue.jstr "Anna"), ("slug", JValue.jstr "anna"),
      ("hero-image", JValue.jobj
        [("url", JValue.jstr "https://img.example/old.jpg"), ("alt", JValue.jstr "A")])]⟩]⟩

def c7item : SanityItem := ⟨"creator-2", some "anna", none⟩

def c7run : SyncRun := syncCollection c7env [c7item] c7st

/-- C7 counterexample: a record whose projection hash equals the ledger
entry, with no force flag, is nevertheless classified as an update
(one remote write issued) because the destination item's current image
URL differs from the new one — the claimed equivalence
`unchanged ↔ hash-equal ∧ ¬force` omits the image check. -/
theorem claim_C7_counterexample_image_check_forces_update :
    mapGet c7st.persistentHashes "creator:creator-2"
        = some (hashObjectStable (removeField "slug" c7m))
      ∧ c7env.forceUpdate = false
      ∧ c7run.created = 0 ∧ c7run.updated = 1 ∧ c7run.aborted = false :=
  ⟨rfl, rfl, by decide, by decide, by decide⟩

def c7acc : ClassAcc := ⟨c7st.idMappings, c7st.persistentHashes, [], [], 0, []⟩

/-- Witness for the amended C7 theorem at the concrete C7 scenario:
the projection has no slug, the record is not classified unchanged
(the image check fires), and the single update write targets its
mapped destination id. -/
theorem claim_C7_amended_witness :
    lookupField "slug" (removeField "slug" c7m) = none
      ∧ (classifyOne c7env c7st.webflowItems [] c7acc c7item).updateItems ≠ c7acc.updateItems
      ∧ ∃ u ∈ (runClass c7env [c7item] c7st).updateItems, "wf-2" = u.webflowId := by
  obtain ⟨h1, h2, h3⟩ := claim_C7_amended_unchanged_iff c7env c7st.webflowItems [] c7acc
    c7item c7m "wf-2" rfl rfl (by decide) (by decide)
  refine ⟨h1, ?_, h3 [c7item] c7st "wf-2" (by decide)⟩
  intro habs
  exact absurd (h2.mp habs).2.2 (by decide)

lemma mapGet_mem_values {α : Type} (m : List (String × α)) (k : String) (v : α)
    (h : mapGet m k = some v) : v ∈ mapValues m := by
  induction m with
  | nil => simp [mapGet] at h
  | cons p rest ih =>
    obtain ⟨k', v'⟩ := p
    unfold mapGet at h
    by_cases hk : k' = k
    · rw [if_pos hk] at h
      injection h with h
      subst h
      exact List.mem_cons_self _ _
    · rw [if_neg hk] at h
      exact List.mem_cons_of_mem _ (ih h)

lemma mapValues_mapSet_subset {α : Type} (m : List (String × α)) (k : String) (v x : α)
    (h : x ∈ mapValues (mapSet m k v)) : x = v ∨ x ∈ mapValues m := by
  induction m with
  | nil => simpa [mapSet, mapValues] using h
  | cons p rest ih =>
    obtain ⟨k', v'⟩ := p
    unfold mapSet at h
    by_cases hk : k' = k
    · rw [if_pos hk] at h
      rcases List.mem_cons.mp h with h | h
      · exact Or.inl h
      · exact Or.inr (List.mem_cons_of_mem _ h)
    · rw [if_neg hk] at h
      rcases List.mem_cons.mp h with h | h
      · exact Or.inr (h ▸ List.mem_cons_self _ _)
      · rcases ih h with h | h
        · exact Or.inl h
        · exact Or.inr (List.mem_cons_of_mem _ h)

lemma mapValues_mapDelete_subset {α : Type} (m : List (String × α)) (k : String) (x : α)
    (h : x ∈ mapValues (mapDelete m k)) : x ∈ mapValues m := by
  induction m with
  | nil => simpa [mapDelete] using h
  | cons p rest ih =>
    obtain ⟨k', v'⟩ := p
    unfold mapDelete at h
    by_cases hk : k' = k
    · rw [if_pos hk] at h
      exact List.mem_cons_of_mem _ h
    · rw [if_neg hk] at h
      rcases List.mem_cons.mp h with h | h
      · exact h ▸ List.mem_cons_self _ _
      · exact List.mem_cons_of_mem _ (ih h)

lemma mapGet_mapSet_cases {α : Type} (m : List (String × α)) (k k' : String) (v : α) :
    mapGet (mapSet m k v) k' = if k = k' then some v else mapGet m k' := by
  induction m with
  | nil => simp [mapSet, mapGet]
  | cons p rest ih =>
    obtain ⟨k0, v0⟩ := p
    unfold mapSet
    by_cases h0 : k0 = k
    · rw [if_pos h0]
      unfold mapGet
      by_cases h1 : k = k'
      · rw [if_pos h1, if_pos h1]
      · rw [if_neg h1, if_neg h1]
        subst h0
        unfold mapGet
        rw [if_neg h1]
    · rw [if_neg h0]
      unfold mapGet
      by_cases h1 : k0 = k'
      · rw [if_pos h1]
        have : ¬(k = k') := fun h => h0 (h1.trans h.symm)
        rw [if_neg this, if_pos h1]
      · rw [if_neg h1, ih]
        by_cases h2 : k = k'
        · rw [if_pos h2, if_pos h2]
        · rw [if_neg h2, if_neg h2, if_neg h1]

lemma jsStrOr_none_eq_some (a : Option String) (v : String)
    (h : jsStrOr a none = some v) : a = some v := by
  cases a with
  | none => simp [jsStrOr] at h
  | some s =>
    simp only [jsStrOr] at h
    by_cases hs : s = ""
    · rw [if_pos hs] at h
      exact Option.noConfusion h
    · rw [if_neg hs] at h
      exact h

lemma buildBySlug_sound (items : List WfItem) :
    ∀ (s : String) (w : WfItem), mapGet (buildBySlug items) s = some w →
      w ∈ items ∧ lookupField "slug" w.fieldData = some (JValue.jstr s) ∧ ¬(s = "") := by
  suffices H : ∀ (items : List WfItem) (acc : List (String × WfItem)) (s : String) (w : WfItem),
      mapGet (items.foldl (fun m w =>
        match lookupField "slug" w.fieldData with
        | some (JValue.jstr s) => if s = "" then m else mapSet m s w
        | _ => m) acc) s = some w →
      mapGet acc s = some w
        ∨ (w ∈ items ∧ lookupField "slug" w.fieldData = some (JValue.jstr s) ∧ ¬(s = "")) by
    intro s w h
    rcases H items [] s w h with h2 | h2
    · simp [mapGet] at h2
    · exact h2
  intro items
  induction items with
  | nil => exact fun acc s w h => Or.inl h
  | cons it rest ih =>
    intro acc s w h
    rw [List.foldl_cons] at h
    rcases ih _ s w h with h2 | h2
    · rcases hsl : lookupField "slug" it.fieldData with _ | v
      · simp only [hsl] at h2
        exact Or.inl h2
      · cases v <;> simp only [hsl] at h2
        case jstr s0 =>
          by_cases hs0 : s0 = ""
          · rw [if_pos hs0] at h2
            exact Or.inl h2
          · rw [if_neg hs0] at h2
            rw [mapGet_mapSet_cases] at h2
            by_cases hss : s0 = s
            · rw [if_pos hss] at h2
              injection h2 with h2
              subst h2
              exact Or.inr ⟨List.mem_cons_self _ _, hss ▸ hsl, hss ▸ hs0⟩
            · rw [if_neg hss] at h2
              exact Or.inl h2
        all_goals exact Or.inl h2
    · exact Or.inr ⟨List.mem_cons_of_mem _ h2.1, h2.2⟩

lemma staleCheck_inv (env : SyncEnv) (store : List WfItem)
    (mappings hashes : List (String × String)) (item : SanityItem)
    (ex0 : Option String) (ops : List Op) (B : String)
    (h1 : B ∉ mapValues mappings) :
    (B ∉ mapValues (staleCheck env store mappings hashes item ex0 ops).mappings)
    ∧ (∀ v, (staleCheck env store mappings hashes item ex0 ops).existingId = some v →
        ex0 = some v
        ∧ (staleCheck env store mappings hashes item ex0 ops).mappings = mappings) := by
  cases ex0 with
  | none => exact ⟨h1, by intro v h; exact Option.noConfusion h⟩
  | some eid =>
    simp only [staleCheck]
    by_cases hl : (storeFind store eid).isSome = true
    · rw [if_pos hl]
      exact ⟨h1, fun v h => ⟨by injection h with h; rw [h], rfl⟩⟩
    · rw [if_neg hl]
      refine ⟨?_, fun v h => Option.noConfusion h⟩
      intro hmem
      exact h1 (mapValues_mapDelete_subset _ _ _ hmem)

lemma adoptBySlug_inv (bySlug : List (String × WfItem))
    (mappings : List (String × String)) (item : SanityItem) (mfields : FieldMap)
    (ex1 : Option String) (B : String)
    (h1 : B ∉ mapValues mappings)
    (hex : ∀ v, ex1 = some v → ¬(v = B))
    (hAd : ∀ s, lookupField "slug" mfields = some (JValue.jstr s) → ¬(s = "") →
      ∀ w', mapGet bySlug s = some w' → ¬(w'.id = B)) :
    (B ∉ mapValues (adoptBySlug bySlug mappings item mfields ex1).1)
    ∧ (∀ v, (adoptBySlug bySlug mappings item mfields ex1).2 = some v → ¬(v = B)) := by
  cases ex1 with
  | some eid =>
    exact ⟨h1, fun v h => by injection h with h; exact h ▸ hex eid rfl⟩
  | none =>
    simp only [adoptBySlug]
    rcases hsl : lookupField "slug" mfields with _ | v
    · simp only [hsl]
      exact ⟨h1, fun v h => Option.noConfusion h⟩
    · cases v
      case jstr s =>
        simp only [hsl]
        by_cases hs : s = ""
        · rw [if_pos hs]
          exact ⟨h1, fun v h => Option.noConfusion h⟩
        · rw [if_neg hs]
          rcases hget : mapGet bySlug s with _ | adopt
          · simp only [hget]
            exact ⟨h1, fun v h => Option.noConfusion h⟩
          · simp only [hget]
            by_cases hid : adopt.id = ""
            · rw [if_pos hid]
              exact ⟨h1, fun v h => Option.noConfusion h⟩
            · rw [if_neg hid]
              have hne : ¬(adopt.id = B) := hAd s hsl hs adopt hget
              refine ⟨?_, ?_⟩
              · intro hmem
                rcases mapValues_mapSet_subset _ _ _ _ hmem with h | h
                · exact hne h.symm
                · exact h1 h
              · intro v h
                injection h with h
                exact h ▸ hne
      all_goals simp only [hsl]
      all_goals exact ⟨h1, fun v h => Option.noConfusion h⟩

lemma classifyOne_inv (env : SyncEnv) (store : List WfItem)
    (bySlug : List (String × WfItem)) (B : String) (acc : ClassAcc) (item : SanityItem)
    (hWf : item.webflowId = none)
    (hAd : ∀ mfields, env.fieldMapper item = some mfields →
      ∀ s, lookupField "slug" mfields = some (JValue.jstr s) → ¬(s = "") →
      ∀ w', mapGet bySlug s = some w' → ¬(w'.id = B))
    (h1 : B ∉ mapValues acc.mappings)
    (h2 : ∀ u ∈ acc.updateItems, ¬(u.webflowId = B)) :
    B ∉ mapValues (classifyOne env store bySlug acc item).mappings
    ∧ ∀ u ∈ (classifyOne env store bySlug acc item).updateItems, ¬(u.webflowId = B) := by
  unfold classifyOne
  cases hm : env.fieldMapper item with
  | none => exact ⟨h1, h2⟩
  | some mapped =>
    simp only
    have hex0 : ∀ v, jsStrOr (mapGet acc.mappings item._id) item.webflowId = some v →
        ¬(v = B) := by
      intro v hv hvB
      rw [hWf] at hv
      exact h1 (hvB ▸ mapGet_mem_values _ _ _ (jsStrOr_none_eq_some _ _ hv))
    obtain ⟨hs1, hs2⟩ := staleCheck_inv env store acc.mappings acc.hashes item
      (jsStrOr (mapGet acc.mappings item._id) item.webflowId) acc.ops B h1
    have hex1 : ∀ v, (staleCheck env store acc.mappings acc.hashes item
        (jsStrOr (mapGet acc.mappings item._id) item.webflowId) acc.ops).existingId
          = some v → ¬(v = B) :=
      fun v h => hex0 v (hs2 v h).1
    obtain ⟨ha1, ha2⟩ := adoptBySlug_inv bySlug _ item mapped _ B hs1 hex1 (hAd mapped hm)
    cases had : (adoptBySlug bySlug (staleCheck env store acc.mappings acc.hashes item
      (jsStrOr (mapGet acc.mappings item._id) item.webflowId) acc.ops).mappings item mapped
      (staleCheck env store acc.mappings acc.hashes item
        (jsStrOr (mapGet acc.mappings item._id) item.webflowId) acc.ops).existingId).2 with
    | none =>
      simp only [had]
      exact ⟨ha1, h2⟩
    | some eid =>
      simp only [had]
      have heidB : ¬(eid = B) := ha2 eid had
      split <;> split
      all_goals
        first
          | exact ⟨ha1, h2⟩
          | · refine ⟨ha1, ?_⟩
              intro u hu
              rcases List.mem_append.mp hu with hu | hu
              · exact h2 u hu
              · rw [List.mem_singleton.mp hu]
                exact heidB

lemma classifyAll_inv (env : SyncEnv) (store : List WfItem)
    (bySlug : List (String × WfItem)) (B : String) :
    ∀ (items : List SanityItem) (acc : ClassAcc),
    (∀ it ∈ items, it.webflowId = none) →
    (∀ it ∈ items, ∀ mfields, env.fieldMapper it = some mfields →
      ∀ s, lookupField "slug" mfields = some (JValue.jstr s) → ¬(s = "") →
      ∀ w', mapGet bySlug s = some w' → ¬(w'.id = B)) →
    B ∉ mapValues acc.mappings →
    (∀ u ∈ acc.updateItems, ¬(u.webflowId = B)) →
    B ∉ mapValues (classifyAll env store bySlug items acc).mappings
    ∧ ∀ u ∈ (classifyAll env store bySlug items acc).updateItems, ¬(u.webflowId = B) := by
  intro items
  induction items with
  | nil => exact fun acc _ _ h1 h2 => ⟨h1, h2⟩
  | cons item rest ih =>
    intro acc hWf hAd h1 h2
    obtain ⟨h1', h2'⟩ := classifyOne_inv env store bySlug B acc item
      (hWf item (List.mem_cons_self _ _)) (hAd item (List.mem_cons_self _ _)) h1 h2
    exact ih (classifyOne env store bySlug acc item)
      (fun it h => hWf it (List.mem_cons_of_mem _ h))
      (fun it h => hAd it (List.mem_cons_of_mem _ h)) h1' h2'

lemma bnot_eq_true_iff (b : Bool) : (!b) = true ↔ b = false := by
  cases b <;> simp

lemma mem_mapSet {α : Type} (m : List (String × α)) (k : String) (v : α)
    (p : String × α) (h : p ∈ mapSet m k v) : p = (k, v) ∨ p ∈ m := by
  induction m with
  | nil => simpa [mapSet] using h
  | cons q rest ih =>
    obtain ⟨k', v'⟩ := q
    unfold mapSet at h
    by_cases hk : k' = k
    · rw [if_pos hk] at h
      rcases List.mem_cons.mp h with h | h
      · exact Or.inl h
      · exact Or.inr (List.mem_cons_of_mem _ h)
    · rw [if_neg hk] at h
      rcases List.mem_cons.mp h with h | h
      · exact Or.inr (h ▸ List.mem_cons_self _ _)
      · rcases ih h with h | h
        · exact Or.inl h
        · exact Or.inr (List.mem_cons_of_mem _ h)

lemma recordCreated_mem (env : SyncEnv) :
    ∀ (pairs : List (WfItem × NewItem)) (m h : List (String × String))
      (p : String × String), p ∈ (recordCreated env pairs m h).1 →
      p ∈ m ∨ ∃ q ∈ pairs, p.2 = (Prod.fst q).id := by
  intro pairs
  induction pairs with
  | nil => exact fun m h p hp => Or.inl hp
  | cons q0 rest ih =>
    intro m h p hp
    obtain ⟨w0, ni0⟩ := q0
    unfold recordCreated at hp
    rcases ih _ _ p hp with hp2 | ⟨q, hq, hq2⟩
    · rcases mem_mapSet _ _ _ _ hp2 with hp3 | hp3
      · refine Or.inr ⟨(w0, ni0), List.mem_cons_self _ _, ?_⟩
        rw [hp3]
      · exact Or.inl hp3
    · exact Or.inr ⟨q, List.mem_cons_of_mem _ hq, hq2⟩

lemma createWebflowItems_results (env : SyncEnv) :
    ∀ (items : List NewItem) (store : List WfItem) (r : WfItem),
      r ∈ (createWebflowItems env items store).results →
      ∃ ni ∈ items, r.id = env.freshId ni.item._id := by
  intro items
  induction items with
  | nil => intro store r hr; simp [createWebflowItems] at hr
  | cons ni rest ih =>
    intro store r hr
    unfold createWebflowItems at hr
    split at hr
    · simp at hr
    · simp only [apply_ite CreateOut.results, ite_self] at hr
      split at hr
      · simp at hr
      · rcases List.mem_cons.mp hr with hr | hr
        · exact ⟨ni, List.mem_cons_self _ _, by rw [hr]⟩
        · obtain ⟨ni2, hni2, h2⟩ := ih _ r hr
          exact ⟨ni2, List.mem_cons_of_mem _ hni2, h2⟩

lemma createWebflowItems_store_src (env : SyncEnv) :
    ∀ (items : List NewItem) (store : List WfItem) (x : WfItem),
      x ∈ (createWebflowItems env items store).store →
      x ∈ store ∨ ∃ ni ∈ items, x.id = env.freshId ni.item._id := by
  intro items
  induction items with
  | nil => intro store x hx; exact Or.inl hx
  | cons ni rest ih =>
    intro store x hx
    unfold createWebflowItems at hx
    split at hx
    · exact Or.inl hx
    · simp only [apply_ite CreateOut.store, ite_self] at hx
      rcases ih _ x hx with hx2 | ⟨ni2, hni2, h2⟩
      · rcases List.mem_append.mp hx2 with hx3 | hx3
        · exact Or.inl hx3
        · refine Or.inr ⟨ni, List.mem_cons_self _ _, ?_⟩
          rw [List.mem_singleton.mp hx3]
      · exact Or.inr ⟨ni2, List.mem_cons_of_mem _ hni2, h2⟩

lemma applyUpdate_ids (store : List WfItem) (id : String) (fields : FieldMap) :
    (applyUpdate store id fields).map WfItem.id = store.map WfItem.id := by
  unfold applyUpdate
  rw [List.map_map]
  apply List.map_congr_left
  intro a _
  simp only [Function.comp]
  split <;> rfl

lemma updatePhase_store_ids (env : SyncEnv) :
    ∀ (items : List UpdItem) (store : List WfItem) (hashes : List (String × String)),
      (updatePhase env items store hashes).store.map WfItem.id
        = store.map WfItem.id := by
  intro items
  induction items with
  | nil => intro store hashes; rfl
  | cons u rest ih =>
    intro store hashes
    unfold updatePhase
    rcases hout : env.updateOutcome u.webflowId with _ | _ | _ | _
    · rw [ih, applyUpdate_ids]
    · rw [ih]
    · rw [ih, applyUpdate_ids]
    · rfl

/-- The ids the orphan pass deletes: ids of the unclaimed fetched
items. -/
def orphIds (env : SyncEnv) (sd : List SanityItem) (fetched : List WfItem)
    (bySlug : List (String × WfItem)) (c : ClassAcc) : List String :=
  (orphanedOf env sd fetched bySlug c).map (fun w => w.id)

/-- The hash-ledger keys purged by the orphan pass: the keys of the
source ids whose mapping pointed at a deleted id. -/
def purgedKeys (env : SyncEnv) (sd : List SanityItem) (fetched : List WfItem)
    (bySlug : List (String × WfItem)) (c : ClassAcc) : List String :=
  (c.mappings.filterMap (fun p =>
    if (orphIds env sd fetched bySlug c).contains p.2 then some p.1 else none)).map
      (fun s => env.mappingKey ++ ":" ++ s)

/-- The orphan pass in a full run with a non-empty orphan set, written
out: the orphaned ids are deleted, the store and the mapping are
filtered, and the hash entries keyed by purged source ids are
dropped. -/
lemma orphanPass_run (env : SyncEnv) (sd : List SanityItem) (fetched : List WfItem)
    (bySlug : List (String × WfItem)) (c : ClassAcc) (store : List WfItem)
    (hS : env.singleItem = false)
    (hne : (orphanedOf env sd fetched bySlug c).isEmpty = false) :
    orphanPass env sd fetched bySlug c store =
      ⟨c.mappings.filter (fun p => !((orphIds env sd fetched bySlug c).contains p.2)),
        c.hashes.filter (fun p => !((purgedKeys env sd fetched bySlug c).contains p.1)),
        store.filter (fun x => !((orphIds env sd fetched bySlug c).contains x.id)),
        orphIds env sd fetched bySlug c,
        (orphIds env sd fetched bySlug c).map Op.deleteItem⟩ := by
  unfold orphanPass
  rw [hS]
  simp only [hne]
  rfl

/-- The orphan pass on a destination record that exists, carries a
distinct id, and is not claimed: the id is deleted exactly once, it is
purged from the surviving mapping, hash ledger and store, and every
deleted id is unclaimed. -/
lemma orphan_run_facts (env : SyncEnv) (sd : List SanityItem) (fetched : List WfItem)
    (bySlug : List (String × WfItem)) (c : ClassAcc) (store : List WfItem) (w : WfItem)
    (hS : env.singleItem = false) (hwmem : w ∈ fetched)
    (hcl : (claimedIds env sd bySlug c).contains w.id = false)
    (hNodupF : (fetched.map (fun x => x.id)).Nodup) :
    w.id ∈ (orphanPass env sd fetched bySlug c store).deletedIds
    ∧ (orphanPass env sd fetched bySlug c store).deletedIds.count w.id = 1
    ∧ (∀ p ∈ (orphanPass env sd fetched bySlug c store).mappings,
        p ∈ c.mappings ∧ p.2 ∉ (orphanPass env sd fetched bySlug c store).deletedIds)
    ∧ (∀ x ∈ (orphanPass env sd fetched bySlug c store).store,
        x ∈ store ∧ x.id ∉ (orphanPass env sd fetched bySlug c store).deletedIds)
    ∧ (∀ id ∈ (orphanPass env sd fetched bySlug c store).deletedIds,
        (claimedIds env sd bySlug c).contains id = false)
    ∧ (∀ p ∈ (orphanPass env sd fetched bySlug c store).hashes,
        ∀ q ∈ c.mappings, q.2 ∈ (orphanPass env sd fetched bySlug c store).deletedIds →
          ¬(p.1 = env.mappingKey ++ ":" ++ q.1)) := by
  have hworph : w ∈ orphanedOf env sd fetched bySlug c := by
    refine List.mem_filter.mpr ⟨hwmem, ?_⟩
    show (!((claimedIds env sd bySlug c).contains w.id)) = true
    rw [hcl]
    rfl
  have hne : (orphanedOf env sd fetched bySlug c).isEmpty = false := by
    cases horph : orphanedOf env sd fetched bySlug c with
    | nil => rw [horph] at hworph; exact absurd hworph (List.not_mem_nil w)
    | cons a l => rfl
  simp only [orphanPass_run env sd fetched bySlug c store hS hne]
  have hd1 : w.id ∈ orphIds env sd fetched bySlug c :=
    List.mem_map.mpr ⟨w, hworph, rfl⟩
  have hdnd : (orphIds env sd fetched bySlug c).Nodup :=
    List.Nodup.sublist (List.Sublist.map _ (List.filter_sublist fetched)) hNodupF
  refine ⟨hd1, List.count_eq_one_of_mem hdnd hd1, ?_, ?_, ?_, ?_⟩
  · intro p hp
    obtain ⟨hp1, hp2⟩ := List.mem_filter.mp hp
    refine ⟨hp1, ?_⟩
    intro hmem
    have hc : (orphIds env sd fetched bySlug c).contains p.2 = true :=
      List.elem_iff.mpr hmem
    rw [(bnot_eq_true_iff _).mp hp2] at hc
    exact Bool.noConfusion hc
  · intro x hx
    obtain ⟨hx1, hx2⟩ := List.mem_filter.mp hx
    refine ⟨hx1, ?_⟩
    intro hmem
    have hc : (orphIds env sd fetched bySlug c).contains x.id = true :=
      List.elem_iff.mpr hmem
    rw [(bnot_eq_true_iff _).mp hx2] at hc
    exact Bool.noConfusion hc
  · intro id hid
    obtain ⟨x, hxorph, hxid⟩ := List.mem_map.mp hid
    obtain ⟨_, hx2⟩ := List.mem_filter.mp hxorph
    rw [← hxid]
    exact (bnot_eq_true_iff _).mp hx2
  · intro p hp q hq hq2
    obtain ⟨hp1, hp2⟩ := List.mem_filter.mp hp
    intro heq
    have hqc : (orphIds env sd fetched bySlug c).contains q.2 = true :=
      List.elem_iff.mpr hq2
    have hkey : env.mappingKey ++ ":" ++ q.1 ∈ purgedKeys env sd fetched bySlug c := by
      refine List.mem_map.mpr ⟨q.1, ?_, rfl⟩
      refine List.mem_filterMap.mpr ⟨q, hq, ?_⟩
      rw [hqc]
      rfl
    have hpc : (purgedKeys env sd fetched bySlug c).contains p.1 = true :=
      List.elem_iff.mpr (heq ▸ hkey)
    rw [(bnot_eq_true_iff _).mp hp2] at hpc
    exact Bool.noConfusion hpc

lemma runClass_ops_kinds (env : SyncEnv) (sanity : List SanityItem) (st : SyncState) :
    ∀ op ∈ (runClass env sanity st).ops,
      op = Op.bulkFetch ∨ ∃ id, op = Op.getItem id := by
  intro op hop
  obtain ⟨l, hl, hk⟩ := classifyAll_ops_append env st.webflowItems
    (buildBySlug (getWebflowItems env st)) (cappedData env sanity) (initAcc st)
  unfold runClass at hop
  rw [hl] at hop
  rcases List.mem_append.mp hop with h | h
  · simp [initAcc] at h
    exact Or.inl h
  · exact Or.inr (hk _ h)

/-- C5: orphan safety of a full run.  A destination record that exists
before the run, whose id is not a mapping value and is not matched by
any source slug, is deleted exactly once; its id never survives in the
final mapping or in the final store; hash entries of purged mappings
are dropped; all deletes precede all creations in the operation trace;
and an id held by the post-classification mapping (in particular an id
adopted by slug in the same run) is never deleted. -/
theorem claim_C5_orphan_pass_safety (env : SyncEnv) (sanity : List SanityItem)
    (st : SyncState) (w : WfItem)
    (hSingle : env.singleItem = false)
    (hList : env.listFails = false)
    (hWf : ∀ it ∈ sanity, it.webflowId = none)
    (hNodup : (st.webflowItems.map WfItem.id).Nodup)
    (hw : w ∈ st.webflowItems)
    (hNoMap : w.id ∉ mapValues st.idMappings)
    (hNoSlugMapped : ∀ it ∈ sanity, ∀ mf, env.fieldMapper it = some mf →
      ∀ s, lookupField "slug" mf = some (JValue.jstr s) → ¬(s = "") →
      ¬(lookupField "slug" w.fieldData = some (JValue.jstr s)))
    (hNoSlugSrc : ∀ it ∈ sanity, ∀ s, it.slugCurrent = some s → ¬(s = "") →
      ¬(lookupField "slug" w.fieldData = some (JValue.jstr s)))
    (hFresh : ∀ sid, ¬(env.freshId sid = w.id)) :
    (syncCollection env sanity st).ops.count (Op.deleteItem w.id) = 1
    ∧ (∀ p ∈ (syncCollection env sanity st).state.idMappings, ¬(p.2 = w.id))
    ∧ (∀ x ∈ (syncCollection env sanity st).state.webflowItems, ¬(x.id = w.id))
    ∧ (∀ p ∈ (runOrphan env sanity st).hashes,
        ∀ q ∈ (runClass env sanity st).mappings,
        q.2 ∈ (runOrphan env sanity st).deletedIds →
        ¬(p.1 = env.mappingKey ++ ":" ++ q.1))
    ∧ (∃ l1 l2, (syncCollection env sanity st).ops = l1 ++ l2
        ∧ (∀ id, Op.createItem id ∉ l1) ∧ (∀ id, Op.deleteItem id ∉ l2))
    ∧ (∀ s id, mapGet (runClass env sanity st).mappings s = some id →
        Op.deleteItem id ∉ (syncCollection env sanity st).ops) := by
  have hfetch : getWebflowItems env st = st.webflowItems := by
    simp [getWebflowItems, hList]
  have hsub : ∀ it ∈ cappedData env sanity, it ∈ sanity := by
    intro it hit
    unfold cappedData at hit
    cases hlim : env.limit with
    | none =>
      simp only [hlim] at hit
      exact hit
    | some l =>
      simp only [hlim] at hit
      exact List.take_subset _ _ hit
  have hWfC : ∀ it ∈ cappedData env sanity, it.webflowId = none :=
    fun it h => hWf it (hsub it h)
  have hSlugW : ∀ s w', mapGet (buildBySlug (getWebflowItems env st)) s = some w' →
      w'.id = w.id → lookupField "slug" w.fieldData = some (JValue.jstr s) := by
    intro s w' hget hid
    obtain ⟨hmem, hslug, _⟩ := buildBySlug_sound (getWebflowItems env st) s w' hget
    rw [hfetch] at hmem
    have hww : w' = w := List.inj_on_of_nodup_map hNodup hmem hw hid
    rw [← hww]
    exact hslug
  have hAdAll : ∀ it ∈ cappedData env sanity, ∀ mf, env.fieldMapper it = some mf →
      ∀ s, lookupField "slug" mf = some (JValue.jstr s) → ¬(s = "") →
      ∀ w', mapGet (buildBySlug (getWebflowItems env st)) s = some w' →
        ¬(w'.id = w.id) := by
    intro it hit mf hmf s hsl hs w' hget hid
    exact hNoSlugMapped it (hsub it hit) mf hmf s hsl hs (hSlugW s w' hget hid)
  obtain ⟨hC1, hC2⟩ := classifyAll_inv env st.webflowItems
    (buildBySlug (getWebflowItems env st)) w.id (cappedData env sanity) (initAcc st)
    hWfC hAdAll hNoMap (fun u hu => absurd hu (List.not_mem_nil u))
  have hC1r : w.id ∉ mapValues (runClass env sanity st).mappings := hC1
  have hC2r : ∀ u ∈ (runClass env sanity st).updateItems, ¬(u.webflowId = w.id) := hC2
  have hcl : (claimedIds env (cappedData env sanity)
      (buildBySlug (getWebflowItems env st)) (runClass env sanity st)).contains w.id
        = false := by
    cases hc : (claimedIds env (cappedData env sanity)
        (buildBySlug (getWebflowItems env st)) (runClass env sanity st)).contains w.id with
    | false => rfl
    | true =>
      exfalso
      have hmem : w.id ∈ claimedIds env (cappedData env sanity)
          (buildBySlug (getWebflowItems env st)) (runClass env sanity st) :=
        List.elem_iff.mp hc
      unfold claimedIds at hmem
      rcases List.mem_append.mp hmem with hmem | hmem
      · rcases List.mem_append.mp hmem with hmem | hmem
        · exact hC1r hmem
        · obtain ⟨u, hu, hequ⟩ := List.mem_filterMap.mp hmem
          by_cases hub : u.webflowId = ""
          · rw [if_pos hub] at hequ
            exact Option.noConfusion hequ
          · rw [if_neg hub] at hequ
            injection hequ with hequ
            exact hC2r u hu hequ
      · obtain ⟨it, hit, heq⟩ := List.mem_filterMap.mp hmem
        cases hslc : it.slugCurrent with
        | none =>
          simp only [hslc] at heq
          exact Option.noConfusion heq
        | some slug =>
          simp only [hslc] at heq
          by_cases hse : slug = ""
          · rw [if_pos hse] at heq
            exact Option.noConfusion heq
          · rw [if_neg hse] at heq
            cases hmg2 : mapGet (runClass env sanity st).mappings it._id with
            | some v =>
              simp only [hmg2] at heq
              exact Option.noConfusion heq
            | none =>
              simp only [hmg2] at heq
              cases hbg : mapGet (buildBySlug (getWebflowItems env st)) slug with
              | none =>
                simp only [hbg] at heq
                exact Option.noConfusion heq
              | some w2 =>
                simp only [hbg, Option.map_some'] at heq
                injection heq with heq
                exact hNoSlugSrc it (hsub it hit) slug hslc hse (hSlugW slug w2 hbg heq)
  have hwmem : w ∈ getWebflowItems env st := by
    rw [hfetch]
    exact hw
  have hNodupF : ((getWebflowItems env st).map (fun x => x.id)).Nodup := by
    rw [hfetch]
    exact hNodup
  obtain ⟨hd1, hd2, hmapf, hstoref, huncl, hhashf⟩ := orphan_run_facts env
    (cappedData env sanity) (getWebflowItems env st)
    (buildBySlug (getWebflowItems env st)) (runClass env sanity st) st.webflowItems w
    hSingle hwmem hcl hNodupF
  have hinj : Function.Injective Op.deleteItem := fun a b h => Op.deleteItem.inj h
  have hOops : (runOrphan env sanity st).ops
      = (runOrphan env sanity st).deletedIds.map Op.deleteItem := by
    unfold runOrphan
    exact orphanPass_ops_deletes env _ _ _ _ _
  obtain ⟨rest, hops, hrest⟩ := syncCollection_ops_decomp env sanity st
  have hcount : (syncCollection env sanity st).ops.count (Op.deleteItem w.id) = 1 := by
    rw [hops, List.count_append, List.count_append, List.count_append]
    have h1 : (runClass env sanity st).ops.count (Op.deleteItem w.id) = 0 :=
      List.count_eq_zero.mpr (fun h => by
        rcases runClass_ops_kinds env sanity st _ h with h2 | ⟨id2, h2⟩ <;>
          exact Op.noConfusion h2)
    have h3 : (runCreate env sanity st).ops.count (Op.deleteItem w.id) = 0 :=
      List.count_eq_zero.mpr (fun h => by
        obtain ⟨ni, _, h3⟩ := createWebflowItems_ops env _ _ _ h
        rcases h3 with h3 | h3 | h3 <;> exact Op.noConfusion h3)
    have h4 : rest.count (Op.deleteItem w.id) = 0 :=
      List.count_eq_zero.mpr (fun h => by
        rcases hrest _ h with ⟨u, _, h2 | h2⟩ | ⟨ids, h2⟩ <;> exact Op.noConfusion h2)
    have h2 : (runOrphan env sanity st).ops.count (Op.deleteItem w.id) = 1 := by
      rw [hOops, List.count_map_of_injective _ Op.deleteItem hinj w.id]
      exact hd2
    rw [h1, h2, h3, h4]
  have hcrstore : ∀ x ∈ (runCreate env sanity st).store, ¬(x.id = w.id) := by
    intro x hx heq
    unfold runCreate at hx
    rcases createWebflowItems_store_src env _ _ x hx with hx2 | ⟨ni, _, hni⟩
    · exact (hstoref x hx2).2 (heq.symm ▸ hd1)
    · rw [heq] at hni
      exact hFresh ni.item._id hni.symm
  have hFinalMap : ∀ p ∈ (syncCollection env sanity st).state.idMappings,
      ¬(p.2 = w.id) := by
    intro p hp heq
    rw [syncCollection_def] at hp
    by_cases hab : (runCreate env sanity st).aborted = true
    · rw [if_pos hab] at hp
      exact (hmapf p hp).2 (heq.symm ▸ hd1)
    · rw [if_neg hab] at hp
      rcases recordCreated_mem env _ _ _ p hp with hp2 | ⟨q, hq, hq2⟩
      · exact (hmapf p hp2).2 (heq.symm ▸ hd1)
      · obtain ⟨q1, q2⟩ := q
        have hq1 : q1 ∈ (runCreate env sanity st).results := (List.of_mem_zip hq).1
        obtain ⟨ni, _, hni⟩ := createWebflowItems_results env _ _ q1 hq1
        have hpf : p.2 = env.freshId ni.item._id := by
          rw [hq2]
          exact hni
        have h2 : env.freshId ni.item._id = w.id := by
          rw [← hpf]
          exact heq
        exact hFresh ni.item._id h2
  have hFinalStore : ∀ x ∈ (syncCollection env sanity st).state.webflowItems,
      ¬(x.id = w.id) := by
    intro x hx heq
    rw [syncCollection_def] at hx
    by_cases hab : (runCreate env sanity st).aborted = true
    · rw [if_pos hab] at hx
      exact hcrstore x hx heq
    · rw [if_neg hab] at hx
      have hids : (runUpdate env sanity st).store.map WfItem.id
          = (runCreate env sanity st).store.map WfItem.id := by
        unfold runUpdate
        exact updatePhase_store_ids env _ _ _
      have hxid : x.id ∈ (runCreate env sanity st).store.map WfItem.id := by
        rw [← hids]
        exact List.mem_map_of_mem _ hx
      obtain ⟨y, hy, hyid⟩ := List.mem_map.mp hxid
      apply hcrstore y hy
      rw [hyid]
      exact heq
  have horder : ∃ l1 l2, (syncCollection env sanity st).ops = l1 ++ l2
      ∧ (∀ id, Op.createItem id ∉ l1) ∧ (∀ id, Op.deleteItem id ∉ l2) := by
    refine ⟨(runClass env sanity st).ops ++ (runOrphan env sanity st).ops,
      (runCreate env sanity st).ops ++ rest, ?_, ?_, ?_⟩
    · rw [hops]
      simp [List.append_assoc]
    · intro id h
      rcases List.mem_append.mp h with h | h
      · rcases runClass_ops_kinds env sanity st _ h with h2 | ⟨id2, h2⟩ <;>
          exact Op.noConfusion h2
      · rw [hOops] at h
        obtain ⟨id0, _, h2⟩ := List.mem_map.mp h
        exact Op.noConfusion h2
    · intro id h
      rcases List.mem_append.mp h with h | h
      · obtain ⟨ni, _, h3⟩ := createWebflowItems_ops env _ _ _ h
        rcases h3 with h3 | h3 | h3 <;> exact Op.noConfusion h3
      · rcases hrest _ h with ⟨u, _, h2 | h2⟩ | ⟨ids, h2⟩ <;> exact Op.noConfusion h2
  have hmapped : ∀ s id, mapGet (runClass env sanity st).mappings s = some id →
      Op.deleteItem id ∉ (syncCollection env sanity st).ops := by
    intro s id hmg hmemop
    rw [hops] at hmemop
    rcases List.mem_append.mp hmemop with h | h
    · rcases List.mem_append.mp h with h | h
      · rcases List.mem_append.mp h with h | h
        · rcases runClass_ops_kinds env sanity st _ h with h2 | ⟨id2, h2⟩ <;>
            exact Op.noConfusion h2
        · rw [hOops] at h
          obtain ⟨id0, hid0, h2⟩ := List.mem_map.mp h
          have hid02 : id0 = id := Op.deleteItem.inj h2
          rw [hid02] at hid0
          have hcf := huncl id hid0
          have hct : (claimedIds env (cappedData env sanity)
              (buildBySlug (getWebflowItems env st)) (runClass env sanity st)).contains id
                = true := by
            apply List.elem_iff.mpr
            unfold claimedIds
            exact List.mem_append_left _ (List.mem_append_left _
              (mapGet_mem_values _ _ _ hmg))
          rw [hcf] at hct
          exact Bool.noConfusion hct
      · obtain ⟨ni, _, h3⟩ := createWebflowItems_ops env _ _ _ h
        rcases h3 with h3 | h3 | h3 <;> exact Op.noConfusion h3
    · rcases hrest _ h with ⟨u, _, h2 | h2⟩ | ⟨ids, h2⟩ <;> exact Op.noConfusion h2
  exact ⟨hcount, hFinalMap, hFinalStore, hhashf, horder, hmapped⟩

def c5env : SyncEnv :=
  { mappingKey := "creator"
    fieldMapper := fun _ => none
    germanMapper := fun _ => none
    forceUpdate := false
    singleItem := false
    listFails := false
    createFails := fun _ => false
    updateOutcome := fun _ => UpdOutcome.ok
    freshId := fun _ => "new-item"
    limit := none }

def c5w : WfItem := ⟨"wf-orph", [("slug", JValue.jstr "z")]⟩

def c5st : SyncState := ⟨[], [], [c5w]⟩

theorem claim_C5_witness :
    (syncCollection c5env [] c5st).ops.count (Op.deleteItem c5w.id) = 1
    ∧ (∀ p ∈ (syncCollection c5env [] c5st).state.idMappings, ¬(p.2 = c5w.id))
    ∧ (∀ x ∈ (syncCollection c5env [] c5st).state.webflowItems, ¬(x.id = c5w.id))
    ∧ (∀ p ∈ (runOrphan c5env [] c5st).hashes,
        ∀ q ∈ (runClass c5env [] c5st).mappings,
        q.2 ∈ (runOrphan c5env [] c5st).deletedIds →
        ¬(p.1 = c5env.mappingKey ++ ":" ++ q.1))
    ∧ (∃ l1 l2, (syncCollection c5env [] c5st).ops = l1 ++ l2
        ∧ (∀ id, Op.createItem id ∉ l1) ∧ (∀ id, Op.deleteItem id ∉ l2))
    ∧ (∀ s id, mapGet (runClass c5env [] c5st).mappings s = some id →
        Op.deleteItem id ∉ (syncCollection c5env [] c5st).ops) :=
  claim_C5_orphan_pass_safety c5env [] c5st c5w rfl rfl
    (fun it hit => absurd hit (List.not_mem_nil it))
    (by decide)
    (List.mem_singleton.mpr rfl)
    (List.not_mem_nil _)
    (fun it hit => absurd hit (List.not_mem_nil it))
    (fun it hit => absurd hit (List.not_mem_nil it))
    (fun sid => by
      show ¬("new-item" = "wf-orph")
      decide)

def c10env : SyncEnv :=
  { mappingKey := "creator"
    fieldMapper := fun _ => none
    germanMapper := fun _ => none
    forceUpdate := false
    singleItem := false
    listFails := true
    createFails := fun _ => false
    updateOutcome := fun _ => UpdOutcome.ok
    freshId := fun _ => "new-item"
    limit := none }

def c10st : SyncState := ⟨[], [], [⟨"wf-1", [("slug", JValue.jstr "a")]⟩]⟩

theorem claim_C10_witness :
    getWebflowItems c10env c10st = []
      ∧ ∀ id, Op.deleteItem id ∉ (syncCollection c10env [] c10st).ops :=
  claim_C10_listing_failure_no_deletes c10env [] c10st rfl
